import Mathlib

/-!
Shallow embedding of the cascading-deletion / authorization core of the
e-learning repository: the `delete-video` edge function
(`supabase/functions/delete-video/index.ts`) and the `delete-course` edge
function, together with the URL-to-storage-path resolver
`extractPublicObjectPath` shared by both.

The database and object storage are modelled as in-memory lists of rows;
every data-layer call can be made to fail through an explicit fault
schedule, mirroring the `{ data, error }` results of the supabase client.
Platform primitives used by the source (`new URL`, `decodeURIComponent`,
the `/not.*found/i` regex test) are modelled as executable Lean functions
restricted to the hierarchical `scheme://host/path` URLs the code deals
with.
-/

namespace Ragibs

/-! ## Platform primitives: percent-decoding, URL parsing, regex test -/

/-- Value of a hexadecimal digit, `none` for a non-hex character. -/
def hexVal (c : Char) : Option Nat :=
  let n := c.toNat
  if c.isDigit then some (n - 48)
  else if 65 ≤ n ∧ n ≤ 70 then some (n - 55)
  else if 97 ≤ n ∧ n ≤ 102 then some (n - 87)
  else none

/-- UTF-8 encoding of a single character, as a list of byte values. -/
def utf8EncodeChar (c : Char) : List Nat :=
  let n := c.toNat
  if n < 0x80 then [n]
  else if n < 0x800 then [0xC0 + n / 64, 0x80 + n % 64]
  else if n < 0x10000 then [0xE0 + n / 4096, 0x80 + (n / 64) % 64, 0x80 + n % 64]
  else [0xF0 + n / 262144, 0x80 + (n / 4096) % 64, 0x80 + (n / 64) % 64, 0x80 + n % 64]

/-- Is `b` a UTF-8 continuation byte (`0x80`–`0xBF`)? -/
def isCont (b : Nat) : Bool := decide (0x80 ≤ b) && decide (b ≤ 0xBF)

/-- Strict (shortest-form, surrogate-rejecting) UTF-8 decoding of a byte
list, `none` on any ill-formed sequence — matching the strict decode that
`decodeURIComponent` performs on the bytes recovered from `%XX` escapes. -/
def utf8DecodeList : List Nat → Option (List Char)
  | [] => some []
  | b :: rest =>
    if b < 0x80 then (utf8DecodeList rest).map (Char.ofNat b :: ·)
    else if 0xC2 ≤ b ∧ b ≤ 0xDF then
      match rest with
      | b2 :: rest2 =>
        if isCont b2 then
          (utf8DecodeList rest2).map (Char.ofNat ((b - 0xC0) * 64 + (b2 - 0x80)) :: ·)
        else none
      | _ => none
    else if 0xE0 ≤ b ∧ b ≤ 0xEF then
      match rest with
      | b2 :: b3 :: rest3 =>
        let lo2 := if b = 0xE0 then 0xA0 else 0x80
        let hi2 := if b = 0xED then 0x9F else 0xBF
        if (lo2 ≤ b2 ∧ b2 ≤ hi2) ∧ isCont b3 = true then
          (utf8DecodeList rest3).map
            (Char.ofNat ((b - 0xE0) * 4096 + (b2 - 0x80) * 64 + (b3 - 0x80)) :: ·)
        else none
      | _ => none
    else if 0xF0 ≤ b ∧ b ≤ 0xF4 then
      match rest with
      | b2 :: b3 :: b4 :: rest4 =>
        let lo2 := if b = 0xF0 then 0x90 else 0x80
        let hi2 := if b = 0xF4 then 0x8F else 0xBF
        if (lo2 ≤ b2 ∧ b2 ≤ hi2) ∧ isCont b3 = true ∧ isCont b4 = true then
          (utf8DecodeList rest4).map
            (Char.ofNat ((b - 0xF0) * 262144 + (b2 - 0x80) * 4096 + (b3 - 0x80) * 64 + (b4 - 0x80)) :: ·)
        else none
      | _ => none
    else none

/-- Turn a character list into UTF-8 bytes, replacing each `%XX` escape by
its byte value; `none` when a `%` is not followed by two hex digits (the
case in which `decodeURIComponent` throws a `URIError`). -/
def percentDecodeBytes : List Char → Option (List Nat)
  | [] => some []
  | '%' :: c1 :: c2 :: rest =>
    match hexVal c1, hexVal c2 with
    | some h, some l => (percentDecodeBytes rest).map ((16 * h + l) :: ·)
    | _, _ => none
  | '%' :: _ => none
  | c :: rest => (percentDecodeBytes rest).map (utf8EncodeChar c ++ ·)

/-- Model of the platform `decodeURIComponent`: percent-escapes are decoded
to bytes and the whole byte sequence is strictly UTF-8 decoded; `none`
models the thrown `URIError` on malformed escapes or ill-formed UTF-8. -/
def decodeURIComponentOpt (s : String) : Option String :=
  match percentDecodeBytes s.data with
  | none => none
  | some bs => (utf8DecodeList bs).map (fun cs => String.mk cs)

/-- Split a character list at the first occurrence of `sep`, returning the
parts before and after it; `none` when `sep` does not occur. -/
def splitAtSub (sep : List Char) : List Char → Option (List Char × List Char)
  | [] => if sep.isPrefixOf ([] : List Char) then some ([], []) else none
  | c :: rest =>
    if sep.isPrefixOf (c :: rest) then some ([], (c :: rest).drop sep.length)
    else (splitAtSub sep rest).map (fun p => (c :: p.1, p.2))

/-- First index at which `needle` occurs inside `hay`; `none` when it does
not occur — the `String.prototype.indexOf === -1` test of the source. -/
def listIdxOfSub (hay needle : List Char) : Option Nat :=
  if needle.isPrefixOf hay then some 0
  else
    match hay with
    | [] => none
    | _ :: t => (listIdxOfSub t needle).map (· + 1)

def isSchemeChar (c : Char) : Bool := c.isAlpha

def isHostChar (c : Char) : Bool := c.isAlphanum || c == '.' || c == '-' || c == ':'

structure ParsedURL where
  scheme : String
  host : String
  pathname : String
deriving Repr, DecidableEq

/-- Model of the platform WHATWG `new URL(url)` parser, restricted to the
hierarchical `scheme://host/path` URLs this code base stores: a non-empty
alphabetic scheme, `://`, a non-empty host drawn from alphanumerics and
`.`/`-`/`:`, then a pathname running to the first `?` or `#` (defaulting to
`/`).  Strings outside this fragment — in particular the empty string and
plain non-URL text, on which the real parser throws — are `none`. -/
def parseURL (s : String) : Option ParsedURL :=
  match splitAtSub "://".data s.data with
  | none => none
  | some (sch, rest) =>
    if sch ≠ [] ∧ sch.all isSchemeChar then
      let host := rest.takeWhile (fun c => !(c == '/' || c == '?' || c == '#'))
      let afterHost := rest.drop host.length
      if host ≠ [] ∧ host.all isHostChar then
        let path := afterHost.takeWhile (fun c => !(c == '?' || c == '#'))
        some ⟨String.mk sch, String.mk host, if path = [] then "/" else String.mk path⟩
      else none
    else none

/-- `extractPublicObjectPath` (identical in delete-video/index.ts and the
delete-course function): parse the URL, look for the public-storage marker
for `bucket` inside the pathname, and percent-decode what follows; every
failure (parse throw, missing marker, decode throw) becomes `null`. -/
def extractPublicObjectPath (url bucket : String) : Option String :=
  match parseURL url with
  | none => none
  | some u =>
    let marker := "/storage/v1/object/public/" ++ bucket ++ "/"
    match listIdxOfSub u.pathname.data marker.data with
    | none => none
    | some i => decodeURIComponentOpt (String.mk (u.pathname.data.drop (i + marker.data.length)))

/-- The `/not.*found/i` test of the source: does the (lowercased) string
contain `"not"` followed — with no intervening newline, since `.` does not
match `\n` — by `"found"`? Helper: is there an occurrence of `"found"`
reachable without crossing a newline? -/
def hasFoundNoNewline : List Char → Bool
  | [] => false
  | c :: rest => ("found".data.isPrefixOf (c :: rest)) || (!(c == '\n') && hasFoundNoNewline rest)

def notThenFound : List Char → Bool
  | [] => false
  | c :: rest =>
    (("not".data.isPrefixOf (c :: rest)) && hasFoundNoNewline ((c :: rest).drop 3))
      || notThenFound rest

/-- Model of `/not.*found/i.test msg` from the storage-removal error check. -/
def regexNotFound (s : String) : Bool := notThenFound (s.data.map Char.toLower)

/-! ## Data model

Rows of the tables the two functions touch.  `video_url` and
`thumbnail_url` are nullable columns, hence `Option String`; the source
passes them through `asString`, which maps `null` to `""`. -/

structure VideoRow where
  id : String
  owner_id : String
  course_id : String
  video_url : Option String
deriving Repr, DecidableEq

structure EventRow where
  id : String
  video_id : String
deriving Repr, DecidableEq

/-- A row of `quizzes`, `quiz_attempts`, `exam_launches` or
`video_event_completions`: all four are deleted purely by their
`event_id` foreign key, the only column the cascade reads. -/
structure EventChildRow where
  id : String
  event_id : String
deriving Repr, DecidableEq

structure ProgressRow where
  id : String
  video_id : String
deriving Repr, DecidableEq

structure CourseRow where
  id : String
  owner_id : String
  thumbnail_url : Option String
deriving Repr, DecidableEq

structure RoleRow where
  user_id : String
  role : String
deriving Repr, DecidableEq

structure DB where
  videos : List VideoRow
  timeline_events : List EventRow
  quizzes : List EventChildRow
  quiz_attempts : List EventChildRow
  exam_launches : List EventChildRow
  video_event_completions : List EventChildRow
  video_progress : List ProgressRow
  courses : List CourseRow
  user_roles : List RoleRow
deriving Repr, DecidableEq

/-- Database plus the object-storage buckets: storage is the list of
`(bucket, objectPath)` pairs currently stored. -/
structure Sys where
  db : DB
  storage : List (String × String)
deriving Repr, DecidableEq

/-- Fault schedule for the data-layer and storage calls: each field is the
`error` that the corresponding supabase call returns (`none` = the call
succeeds).  Per-video cascade steps are keyed by the video id being
cascaded; `storageRemove` is keyed by bucket and object path. -/
structure Faults where
  videoFetchFail : Option String
  courseFetchFail : Option String
  rolesFail : Option String
  videosSelectFail : Option String
  eventsSelectFail : String → Option String
  quizzesDeleteFail : String → Option String
  quizAttemptsDeleteFail : String → Option String
  examLaunchesDeleteFail : String → Option String
  completionsDeleteFail : String → Option String
  eventsDeleteFail : String → Option String
  progressDeleteFail : String → Option String
  videoDeleteFail : String → Option String
  courseDeleteFail : Option String
  storageRemove : String → String → Option String

/-- The data-layer / storage calls a handler issues, in order: the trace of
a run records them so that ordering claims can be stated. -/
inductive Op where
  | selectVideo (id : String)
  | selectCourse (id : String)
  | selectRoles (userId : String)
  | selectVideosOfCourse (courseId : String)
  | selectEvents (videoId : String)
  | deleteQuizzes (eventIds : List String)
  | deleteQuizAttempts (eventIds : List String)
  | deleteExamLaunches (eventIds : List String)
  | deleteCompletions (eventIds : List String)
  | deleteEvents (videoId : String)
  | deleteProgress (videoId : String)
  | deleteVideoRow (videoId : String)
  | deleteCourseRow (courseId : String)
  | storageRemoveOp (bucket path : String)
deriving Repr, DecidableEq

/-- System state plus the trace of calls issued so far. -/
structure RunSt where
  sys : Sys
  trace : List Op
deriving Repr, DecidableEq

def addOp (st : RunSt) (op : Op) : RunSt := { st with trace := st.trace ++ [op] }

/-- HTTP response: status plus the `error` field of the JSON body
(`none` for the `{ ok: true }` success body). -/
structure Resp where
  status : Nat
  error : Option String
deriving Repr, DecidableEq

/-- An incoming request: its method, the verified caller id produced by
`authed.auth.getUser()` (`none` when verification fails, yielding 401), and
the parsed JSON body.  Outer `none` = `req.json()` threw (invalid JSON);
inner value = the `videoId`/`courseId` field, `none` when absent or not a
string (`asString` then yields `""`). -/
structure Req where
  method : String
  auth : Option String
  body : Option (Option String)
deriving Repr, DecidableEq

deriving instance DecidableEq for Except

/-- Model of `String.prototype.trim`: strip leading and trailing
whitespace characters. -/
def jsTrim (s : String) : String :=
  String.mk (((s.data.dropWhile Char.isWhitespace).reverse.dropWhile Char.isWhitespace).reverse)

/-- Body validation shared by both handlers:
`asString(body?.videoId).trim()` plus the two 400 branches
("Invalid JSON" / "Missing …"). -/
def requestIdField (missingMsg : String) (body : Option (Option String)) :
    Except (Nat × String) String :=
  match body with
  | none => .error (400, "Invalid JSON")
  | some b =>
    let s := jsTrim (b.getD "")
    if s = "" then .error (400, missingMsg) else .ok s

/-- Roles of a user: the `user_roles` select `.eq("user_id", userId)`
mapped to its `role` column (the source wraps it in a `Set`, used only for
membership tests, so a list with `contains` is an equivalent embedding). -/
def rolesOf (db : DB) (userId : String) : List String :=
  (db.user_roles.filter (fun r => r.user_id == userId)).map (fun r => r.role)

/-- The authorization decision of both handlers:
`isAdmin || (isTeacher && resourceOwner === userId)`. -/
def canDelete (db : DB) (userId ownerId : String) : Bool :=
  (rolesOf db userId).contains "admin"
    || ((rolesOf db userId).contains "teacher" && ownerId == userId)

/-- One fallible delete step of the cascade: record the call in the trace,
consult the fault schedule, and on success apply the row mutation.  Every
data-layer error is surfaced with status 500, as in the source. -/
def delStep (fault : Option String) (op : Op) (upd : DB → DB) (st : RunSt) :
    RunSt × Except (Nat × String) Unit :=
  let st := addOp st op
  match fault with
  | some e => (st, .error (500, e))
  | none => ({ st with sys := { st.sys with db := upd st.sys.db } }, .ok ())

/-- Early-return sequencing of steps (`if (err) return …` in the source). -/
def seqStep (r : RunSt × Except (Nat × String) Unit)
    (k : RunSt → RunSt × Except (Nat × String) Unit) : RunSt × Except (Nat × String) Unit :=
  match r with
  | (st, .error e) => (st, .error e)
  | (st, .ok _) => k st

/-- The event ids the cascade works with: ids of the `timeline_events` rows
of `videoId`, with falsy (empty) ids dropped by `.filter(Boolean)`. -/
def eventIdsOf (db : DB) (videoId : String) : List String :=
  ((db.timeline_events.filter (fun ev => ev.video_id == videoId)).map (fun ev => ev.id)).filter
    (fun s => !(s == ""))

/-- `const videoPath = videoUrl ? extractPublicObjectPath(videoUrl, "videos") : null`
with `videoUrl = asString(v.video_url)`: the storage path of a video row's
object, when its URL points into the public `videos` bucket. -/
def videoPathOf (v : VideoRow) : Option String :=
  let videoUrl := v.video_url.getD ""
  if videoUrl == "" then none else extractPublicObjectPath videoUrl "videos"

/-- The same computation for a course's thumbnail against the
`course-thumbnails` bucket. -/
def thumbPathOf (c : CourseRow) : Option String :=
  let thumbUrl := c.thumbnail_url.getD ""
  if thumbUrl == "" then none else extractPublicObjectPath thumbUrl "course-thumbnails"

/-- The `if (eventIds.length > 0)` block of `cascadeDeleteVideo`: delete
the four event-child tables by event-id membership, then the
`timeline_events` rows of the video. -/
def cascadeChildren (f : Faults) (videoId : String) (eventIds : List String) (st : RunSt) :
    RunSt × Except (Nat × String) Unit :=
  seqStep (delStep (f.quizzesDeleteFail videoId) (.deleteQuizzes eventIds)
    (fun db => { db with quizzes := db.quizzes.filter (fun r => !(eventIds.contains r.event_id)) }) st)
    (fun st =>
  seqStep (delStep (f.quizAttemptsDeleteFail videoId) (.deleteQuizAttempts eventIds)
    (fun db => { db with quiz_attempts := db.quiz_attempts.filter (fun r => !(eventIds.contains r.event_id)) }) st)
    (fun st =>
  seqStep (delStep (f.examLaunchesDeleteFail videoId) (.deleteExamLaunches eventIds)
    (fun db => { db with exam_launches := db.exam_launches.filter (fun r => !(eventIds.contains r.event_id)) }) st)
    (fun st =>
  seqStep (delStep (f.completionsDeleteFail videoId) (.deleteCompletions eventIds)
    (fun db => { db with video_event_completions := db.video_event_completions.filter (fun r => !(eventIds.contains r.event_id)) }) st)
    (fun st =>
  delStep (f.eventsDeleteFail videoId) (.deleteEvents videoId)
    (fun db => { db with timeline_events := db.timeline_events.filter (fun ev => !(ev.video_id == videoId)) }) st))))

/-- `cascadeDeleteVideo` (identical in both edge functions): fetch the
video's timeline-event ids; if any, delete the four event-child tables by
event-id membership and then the events themselves; then delete the
video's progress rows and finally the video row. -/
def cascadeDeleteVideo (f : Faults) (st : RunSt) (videoId : String) :
    RunSt × Except (Nat × String) Unit :=
  let st := addOp st (.selectEvents videoId)
  match f.eventsSelectFail videoId with
  | some e => (st, .error (500, e))
  | none =>
    let eventIds := eventIdsOf st.sys.db videoId
    let children :=
      if eventIds.length > 0 then cascadeChildren f videoId eventIds st
      else (st, .ok ())
    seqStep children (fun st =>
    seqStep (delStep (f.progressDeleteFail videoId) (.deleteProgress videoId)
      (fun db => { db with video_progress := db.video_progress.filter (fun p => !(p.video_id == videoId)) }) st)
      (fun st =>
    delStep (f.videoDeleteFail videoId) (.deleteVideoRow videoId)
      (fun db => { db with videos := db.videos.filter (fun v => !(v.id == videoId)) }) st))

/-- `admin.storage.from(bucket).remove([path])` plus the shared
error check: a failure whose message matches `/not.*found/i` is treated as
success (object already absent); any other failure is a 500. -/
def storageRemove (f : Faults) (st : RunSt) (bucket path : String) :
    RunSt × Except (Nat × String) Unit :=
  let st := addOp st (.storageRemoveOp bucket path)
  match f.storageRemove bucket path with
  | none =>
    ({ st with sys := { st.sys with storage := st.sys.storage.filter (fun bp => !(bp == (bucket, path))) } }, .ok ())
  | some msg => if regexNotFound msg then (st, .ok ()) else (st, .error (500, msg))

/-- `ensureCanDeleteVideo` from delete-video/index.ts: privileged fetch of
the video row by id (`maybeSingle`: 404 when absent, an error — hence
500 — when several rows match), then the caller's roles, then the
admin-or-owning-teacher decision (403 on denial). -/
def ensureCanDeleteVideo (f : Faults) (st : RunSt) (userId videoId : String) :
    RunSt × Except (Nat × String) VideoRow :=
  let st := addOp st (.selectVideo videoId)
  match f.videoFetchFail with
  | some e => (st, .error (500, e))
  | none =>
    match st.sys.db.videos.filter (fun v => v.id == videoId) with
    | [] => (st, .error (404, "Video not found"))
    | [v] =>
      let st := addOp st (.selectRoles userId)
      match f.rolesFail with
      | some e => (st, .error (500, e))
      | none =>
        if canDelete st.sys.db userId v.owner_id then (st, .ok v)
        else (st, .error (403, "Forbidden"))
    | _ => (st, .error (500, "JSON object requested, multiple rows returned"))

/-- The delete-video request handler (`Deno.serve` body of
delete-video/index.ts).  `envOk` models the presence of the three
environment variables checked before anything else. -/
def deleteVideoHandler (envOk : Bool) (f : Faults) (sys : Sys) (req : Req) : RunSt × Resp :=
  let st0 : RunSt := ⟨sys, []⟩
  if req.method == "OPTIONS" then (st0, ⟨200, none⟩)
  else if !(req.method == "POST") then (st0, ⟨405, some "Method not allowed"⟩)
  else if !envOk then (st0, ⟨500, some "Server misconfigured"⟩)
  else
    match req.auth with
    | none => (st0, ⟨401, some "Unauthorized"⟩)
    | some userId =>
      match requestIdField "Missing videoId" req.body with
      | .error (s, m) => (st0, ⟨s, some m⟩)
      | .ok videoId =>
        match ensureCanDeleteVideo f st0 userId videoId with
        | (st, .error (s, m)) => (st, ⟨s, some m⟩)
        | (st, .ok v) =>
          let storagePath := videoPathOf v
          match cascadeDeleteVideo f st videoId with
          | (st, .error (s, m)) => (st, ⟨s, some m⟩)
          | (st, .ok _) =>
            match storagePath with
            | none => (st, ⟨200, none⟩)
            | some p =>
              match storageRemove f st "videos" p with
              | (st, .error (s, m)) => (st, ⟨s, some m⟩)
              | (st, .ok _) => (st, ⟨200, none⟩)

/-- The per-video loop of the delete-course handler: for each fetched video
row, skip falsy ids, run the cascade (aborting on its failure), then remove
the video's storage object (aborting on a non-"not found" failure). -/
def processVideos (f : Faults) : RunSt → List VideoRow → RunSt × Except (Nat × String) Unit
  | st, [] => (st, .ok ())
  | st, v :: rest =>
    if v.id == "" then processVideos f st rest
    else
      match cascadeDeleteVideo f st v.id with
      | (st, .error e) => (st, .error e)
      | (st, .ok _) =>
        match videoPathOf v with
        | none => processVideos f st rest
        | some p =>
          match storageRemove f st "videos" p with
          | (st, .error e) => (st, .error e)
          | (st, .ok _) => processVideos f st rest

/-- The delete-course request handler (`Deno.serve` body of the
delete-course function): auth, body validation, course fetch
(`maybeSingle`), roles + authorization, fetch of the course's videos, the
per-video loop, thumbnail removal, and finally the course-row delete. -/
def deleteCourseHandler (envOk : Bool) (f : Faults) (sys : Sys) (req : Req) : RunSt × Resp :=
  let st0 : RunSt := ⟨sys, []⟩
  if req.method == "OPTIONS" then (st0, ⟨200, none⟩)
  else if !(req.method == "POST") then (st0, ⟨405, some "Method not allowed"⟩)
  else if !envOk then (st0, ⟨500, some "Server misconfigured"⟩)
  else
    match req.auth with
    | none => (st0, ⟨401, some "Unauthorized"⟩)
    | some userId =>
      match requestIdField "Missing courseId" req.body with
      | .error (s, m) => (st0, ⟨s, some m⟩)
      | .ok courseId =>
        let st := addOp st0 (.selectCourse courseId)
        match f.courseFetchFail with
        | some e => (st, ⟨500, some e⟩)
        | none =>
          match st.sys.db.courses.filter (fun c => c.id == courseId) with
          | [] => (st, ⟨404, some "Course not found"⟩)
          | [c] =>
            let st := addOp st (.selectRoles userId)
            match f.rolesFail with
            | some e => (st, ⟨500, some e⟩)
            | none =>
              if canDelete st.sys.db userId c.owner_id then
                let st := addOp st (.selectVideosOfCourse courseId)
                match f.videosSelectFail with
                | some e => (st, ⟨500, some e⟩)
                | none =>
                  let vs := st.sys.db.videos.filter (fun v => v.course_id == courseId)
                  match processVideos f st vs with
                  | (st, .error (s, m)) => (st, ⟨s, some m⟩)
                  | (st, .ok _) =>
                    let afterThumb : RunSt × Except (Nat × String) Unit :=
                      match thumbPathOf c with
                      | none => (st, .ok ())
                      | some p => storageRemove f st "course-thumbnails" p
                    match afterThumb with
                    | (st, .error (s, m)) => (st, ⟨s, some m⟩)
                    | (st, .ok _) =>
                      match delStep f.courseDeleteFail (.deleteCourseRow courseId)
                          (fun db => { db with courses := db.courses.filter (fun r => !(r.id == courseId)) }) st with
                      | (st, .error (s, m)) => (st, ⟨s, some m⟩)
                      | (st, .ok _) => (st, ⟨200, none⟩)
              else (st, ⟨403, some "Forbidden"⟩)
          | _ => (st, ⟨500, some "JSON object requested, multiple rows returned"⟩)

/-! ## Derived descriptions of the cascade

`cascadeEffect` is the database a successful cascade leaves behind,
`cascadeTrace` the calls it issues, `cascadeFaultFree` the condition that
no fault is scheduled for any of its steps. -/

def cascadeEffect (db : DB) (vid : String) : DB :=
  let E := eventIdsOf db vid
  { db with
    quizzes := if E.length > 0 then db.quizzes.filter (fun r => !(E.contains r.event_id)) else db.quizzes
    quiz_attempts := if E.length > 0 then db.quiz_attempts.filter (fun r => !(E.contains r.event_id)) else db.quiz_attempts
    exam_launches := if E.length > 0 then db.exam_launches.filter (fun r => !(E.contains r.event_id)) else db.exam_launches
    video_event_completions := if E.length > 0 then db.video_event_completions.filter (fun r => !(E.contains r.event_id)) else db.video_event_completions
    timeline_events := if E.length > 0 then db.timeline_events.filter (fun ev => !(ev.video_id == vid)) else db.timeline_events
    video_progress := db.video_progress.filter (fun p => !(p.video_id == vid))
    videos := db.videos.filter (fun v => !(v.id == vid)) }

def childTraceOps (vid : String) (E : List String) : List Op :=
  [.deleteQuizzes E, .deleteQuizAttempts E, .deleteExamLaunches E, .deleteCompletions E, .deleteEvents vid]

def cascadeTrace (db : DB) (vid : String) : List Op :=
  let E := eventIdsOf db vid
  Op.selectEvents vid ::
    ((if E.length > 0 then childTraceOps vid E else []) ++ [Op.deleteProgress vid, Op.deleteVideoRow vid])

def cascadeFaultFree (f : Faults) (vid : String) : Bool :=
  (f.eventsSelectFail vid).isNone && (f.quizzesDeleteFail vid).isNone
    && (f.quizAttemptsDeleteFail vid).isNone && (f.examLaunchesDeleteFail vid).isNone
    && (f.completionsDeleteFail vid).isNone && (f.eventsDeleteFail vid).isNone
    && (f.progressDeleteFail vid).isNone && (f.videoDeleteFail vid).isNone

def isDeleteOp : Op → Bool
  | .deleteQuizzes _ | .deleteQuizAttempts _ | .deleteExamLaunches _ | .deleteCompletions _
  | .deleteEvents _ | .deleteProgress _ | .deleteVideoRow _ | .deleteCourseRow _ => true
  | _ => false

/-- The data-layer delete calls of a trace, in order. -/
def deleteOpsOf (t : List Op) : List Op := t.filter isDeleteOp

/-! ## A concrete populated system, used to instantiate the theorems -/

def noFaults : Faults :=
  ⟨none, none, none, none, fun _ => none, fun _ => none, fun _ => none, fun _ => none,
   fun _ => none, fun _ => none, fun _ => none, fun _ => none, none, fun _ _ => none⟩

def v1row : VideoRow :=
  ⟨"v1", "t1", "c1", some "https://p.supabase.co/storage/v1/object/public/videos/f.mp4"⟩

def v2row : VideoRow := ⟨"v2", "t1", "c1", none⟩

def v3row : VideoRow := ⟨"v3", "t1", "c1", none⟩

/-- One course, one video with two timeline events (a quiz event with a
quiz, two attempts and a completion, and an exam event with a launch), one
progress row; a teacher `t1` owning everything, an admin `a1`, a student
`s1`. -/
def db0 : DB :=
  { videos := [v1row]
    timeline_events := [⟨"e1", "v1"⟩, ⟨"e2", "v1"⟩]
    quizzes := [⟨"q1", "e1"⟩]
    quiz_attempts := [⟨"qa1", "e1"⟩, ⟨"qa2", "e1"⟩]
    exam_launches := [⟨"el1", "e2"⟩]
    video_event_completions := [⟨"vc1", "e1"⟩]
    video_progress := [⟨"p1", "v1"⟩]
    courses := [⟨"c1", "t1", none⟩]
    user_roles := [⟨"t1", "teacher"⟩, ⟨"a1", "admin"⟩, ⟨"s1", "student"⟩] }

def sys0 : Sys := ⟨db0, [("videos", "f.mp4")]⟩

def reqT : Req := ⟨"POST", some "t1", some (some "v1")⟩

def reqStudent : Req := ⟨"POST", some "s1", some (some "v1")⟩

/-- Faults making every storage removal fail with a non-"not found" error. -/
def f7 : Faults := { noFaults with storageRemove := fun _ _ => some "disk exploded" }

/-- Course with three videos; videos 2 and 3 each have one quiz event. -/
def db3 : DB :=
  { videos := [v1row, v2row, v3row]
    timeline_events := [⟨"e1", "v1"⟩, ⟨"e2", "v2"⟩, ⟨"e3", "v3"⟩]
    quizzes := [⟨"q1", "e1"⟩, ⟨"q2", "e2"⟩, ⟨"q3", "e3"⟩]
    quiz_attempts := [⟨"qa2", "e2"⟩]
    exam_launches := []
    video_event_completions := []
    video_progress := [⟨"p2", "v2"⟩, ⟨"p3", "v3"⟩]
    courses := [⟨"c1", "t1", none⟩]
    user_roles := [⟨"t1", "teacher"⟩, ⟨"a1", "admin"⟩, ⟨"s1", "student"⟩] }

def sys3 : Sys := ⟨db3, [("videos", "f.mp4")]⟩

/-- Faults making video `v2`'s cascade fail at its first step. -/
def f3 : Faults :=
  { noFaults with eventsSelectFail := fun v => if v == "v2" then some "boom" else none }

def reqC3 : Req := ⟨"POST", some "a1", some (some "c1")⟩

def vs3 : List VideoRow := db3.videos.filter (fun v => v.course_id == "c1")

def stSel3 : RunSt :=
  ⟨sys3, [Op.selectCourse "c1", Op.selectRoles "a1", Op.selectVideosOfCourse "c1"]⟩

def stK3 : RunSt := (processVideos f3 stSel3 (vs3.take 1)).1

def stX3 : RunSt := (cascadeDeleteVideo f3 stK3 "v2").1

/-- Faults making video `v2`'s cascade fail at its second delete step
(`quiz_attempts`), after its `quizzes` delete already succeeded. -/
def f3b : Faults :=
  { noFaults with quizAttemptsDeleteFail := fun v => if v == "v2" then some "boom2" else none }

/-! ## Characterization lemmas -/

lemma filter_not_filter_nil (l : List α) (p : α → Bool) :
    (l.filter (fun x => !(p x))).filter p = [] := by
  induction l with
  | nil => rfl
  | cons a t ih =>
    by_cases h : p a = true
    · simp [List.filter_cons, h, ih]
    · simp only [Bool.not_eq_true] at h
      simp [List.filter_cons, h, ih]

lemma children_spec (f : Faults) (vid : String) (E : List String) (st st' : RunSt)
    (r : Except (Nat × String) Unit) (h : cascadeChildren f vid E st = (st', r)) :
    st'.sys.storage = st.sys.storage
    ∧ st'.sys.db.courses = st.sys.db.courses
    ∧ st'.sys.db.user_roles = st.sys.db.user_roles
    ∧ st'.sys.db.videos = st.sys.db.videos
    ∧ st'.sys.db.video_progress = st.sys.db.video_progress
    ∧ (∀ e, r = .error e → e.1 = 500)
    ∧ (r = .ok () → st'.sys.db =
        { st.sys.db with
          quizzes := st.sys.db.quizzes.filter (fun x => !(E.contains x.event_id))
          quiz_attempts := st.sys.db.quiz_attempts.filter (fun x => !(E.contains x.event_id))
          exam_launches := st.sys.db.exam_launches.filter (fun x => !(E.contains x.event_id))
          video_event_completions := st.sys.db.video_event_completions.filter (fun x => !(E.contains x.event_id))
          timeline_events := st.sys.db.timeline_events.filter (fun ev => !(ev.video_id == vid)) }
        ∧ st'.trace = st.trace ++ childTraceOps vid E)
    ∧ st'.sys.db.timeline_events.Sublist st.sys.db.timeline_events
    ∧ (∀ ev ∈ st.sys.db.timeline_events, ¬(ev.video_id = vid) → ev ∈ st'.sys.db.timeline_events)
    ∧ (∀ q ∈ st.sys.db.quizzes, E.contains q.event_id = false → q ∈ st'.sys.db.quizzes)
    ∧ (∀ q ∈ st.sys.db.quiz_attempts, E.contains q.event_id = false → q ∈ st'.sys.db.quiz_attempts)
    ∧ (∀ q ∈ st.sys.db.exam_launches, E.contains q.event_id = false → q ∈ st'.sys.db.exam_launches)
    ∧ (∀ q ∈ st.sys.db.video_event_completions, E.contains q.event_id = false → q ∈ st'.sys.db.video_event_completions)
    ∧ (∃ n, n ≤ 5 ∧ st'.trace = st.trace ++ (childTraceOps vid E).take n) := by
  cases hQ : f.quizzesDeleteFail vid with
  | some m =>
    simp only [cascadeChildren, delStep, seqStep, addOp, hQ] at h
    obtain ⟨h1, h2⟩ := Prod.mk.inj h
    subst h1; subst h2
    refine ⟨rfl, rfl, rfl, rfl, rfl, ?_, ?_, ?_, ?_, ?_, ?_, ?_, ?_, ⟨1, by omega, by simp [childTraceOps]⟩⟩
    · intro e he; cases he <;> rfl
    · intro h0; cases h0
    · exact List.Sublist.refl _
    all_goals exact fun a ha _ => ha
  | none =>
  cases hQA : f.quizAttemptsDeleteFail vid with
  | some m =>
    simp only [cascadeChildren, delStep, seqStep, addOp, hQ, hQA] at h
    obtain ⟨h1, h2⟩ := Prod.mk.inj h
    subst h1; subst h2
    refine ⟨rfl, rfl, rfl, rfl, rfl, ?_, ?_, ?_, ?_, ?_, ?_, ?_, ?_,
      ⟨2, by omega, by simp [childTraceOps, List.append_assoc]⟩⟩
    · intro e he; cases he <;> rfl
    · intro h0; cases h0
    · exact List.Sublist.refl _
    all_goals intro a ha hp <;> simp_all [List.mem_filter]
  | none =>
  cases hEL : f.examLaunchesDeleteFail vid with
  | some m =>
    simp only [cascadeChildren, delStep, seqStep, addOp, hQ, hQA, hEL] at h
    obtain ⟨h1, h2⟩ := Prod.mk.inj h
    subst h1; subst h2
    refine ⟨rfl, rfl, rfl, rfl, rfl, ?_, ?_, ?_, ?_, ?_, ?_, ?_, ?_,
      ⟨3, by omega, by simp [childTraceOps, List.append_assoc]⟩⟩
    · intro e he; cases he <;> rfl
    · intro h0; cases h0
    · exact List.Sublist.refl _
    all_goals intro a ha hp <;> simp_all [List.mem_filter]
  | none =>
  cases hCP : f.completionsDeleteFail vid with
  | some m =>
    simp only [cascadeChildren, delStep, seqStep, addOp, hQ, hQA, hEL, hCP] at h
    obtain ⟨h1, h2⟩ := Prod.mk.inj h
    subst h1; subst h2
    refine ⟨rfl, rfl, rfl, rfl, rfl, ?_, ?_, ?_, ?_, ?_, ?_, ?_, ?_,
      ⟨4, by omega, by simp [childTraceOps, List.append_assoc]⟩⟩
    · intro e he; cases he <;> rfl
    · intro h0; cases h0
    · exact List.Sublist.refl _
    all_goals intro a ha hp <;> simp_all [List.mem_filter]
  | none =>
  cases hEV : f.eventsDeleteFail vid with
  | some m =>
    simp only [cascadeChildren, delStep, seqStep, addOp, hQ, hQA, hEL, hCP, hEV] at h
    obtain ⟨h1, h2⟩ := Prod.mk.inj h
    subst h1; subst h2
    refine ⟨rfl, rfl, rfl, rfl, rfl, ?_, ?_, ?_, ?_, ?_, ?_, ?_, ?_,
      ⟨5, by omega, by simp [childTraceOps, List.append_assoc]⟩⟩
    · intro e he; cases he <;> rfl
    · intro h0; cases h0
    · exact List.Sublist.refl _
    all_goals intro a ha hp <;> simp_all [List.mem_filter]
  | none =>
    simp only [cascadeChildren, delStep, seqStep, addOp, hQ, hQA, hEL, hCP, hEV] at h
    obtain ⟨h1, h2⟩ := Prod.mk.inj h
    subst h1; subst h2
    refine ⟨rfl, rfl, rfl, rfl, rfl, ?_, ?_, ?_, ?_, ?_, ?_, ?_, ?_,
      ⟨5, by omega, by simp [childTraceOps, List.append_assoc]⟩⟩
    · intro e he; cases he <;> rfl
    · intro h0
      exact ⟨rfl, by simp [childTraceOps, List.append_assoc]⟩
    · exact List.filter_sublist _
    all_goals intro a ha hp <;> simp_all [List.mem_filter]

@[simp] lemma addOp_sys (st : RunSt) (op : Op) : (addOp st op).sys = st.sys := rfl

@[simp] lemma addOp_trace (st : RunSt) (op : Op) : (addOp st op).trace = st.trace ++ [op] := rfl

lemma sr_spec (f : Faults) (st : RunSt) (b p : String) (st' : RunSt)
    (r : Except (Nat × String) Unit) (h : storageRemove f st b p = (st', r)) :
    st'.sys.db = st.sys.db
    ∧ (∀ e, r = .error e → e.1 = 500 ∧ st'.sys.storage = st.sys.storage)
    ∧ st'.trace = st.trace ++ [.storageRemoveOp b p] := by
  cases hS : f.storageRemove b p with
  | none =>
    simp only [storageRemove, addOp, hS] at h
    obtain ⟨h1, h2⟩ := Prod.mk.inj h
    subst h1; subst h2
    exact ⟨rfl, (by intro e he; cases he), rfl⟩
  | some msg =>
    simp only [storageRemove, addOp, hS] at h
    by_cases hr : regexNotFound msg = true
    · rw [if_pos hr] at h
      obtain ⟨h1, h2⟩ := Prod.mk.inj h
      subst h1; subst h2
      exact ⟨rfl, (by intro e he; cases he), rfl⟩
    · rw [if_neg hr] at h
      obtain ⟨h1, h2⟩ := Prod.mk.inj h
      subst h1; subst h2
      refine ⟨rfl, ?_, rfl⟩
      intro e he; cases he <;> exact ⟨rfl, rfl⟩

lemma cascade_spec (f : Faults) (st : RunSt) (vid : String) (st' : RunSt)
    (r : Except (Nat × String) Unit) (h : cascadeDeleteVideo f st vid = (st', r)) :
    st'.sys.storage = st.sys.storage
    ∧ st'.sys.db.courses = st.sys.db.courses
    ∧ st'.sys.db.user_roles = st.sys.db.user_roles
    ∧ (∀ e, r = .error e → e.1 = 500 ∧ st'.sys.db.videos = st.sys.db.videos)
    ∧ (r = .ok () → st'.sys.db = cascadeEffect st.sys.db vid
        ∧ st'.trace = st.trace ++ cascadeTrace st.sys.db vid)
    ∧ st'.sys.db.timeline_events.Sublist st.sys.db.timeline_events
    ∧ (∀ v ∈ st.sys.db.videos, ¬(v.id = vid) → v ∈ st'.sys.db.videos)
    ∧ (∀ ev ∈ st.sys.db.timeline_events, ¬(ev.video_id = vid) → ev ∈ st'.sys.db.timeline_events)
    ∧ (∀ q ∈ st.sys.db.quizzes, (eventIdsOf st.sys.db vid).contains q.event_id = false →
        q ∈ st'.sys.db.quizzes)
    ∧ (∀ q ∈ st.sys.db.quiz_attempts, (eventIdsOf st.sys.db vid).contains q.event_id = false →
        q ∈ st'.sys.db.quiz_attempts)
    ∧ (∀ q ∈ st.sys.db.exam_launches, (eventIdsOf st.sys.db vid).contains q.event_id = false →
        q ∈ st'.sys.db.exam_launches)
    ∧ (∀ q ∈ st.sys.db.video_event_completions, (eventIdsOf st.sys.db vid).contains q.event_id = false →
        q ∈ st'.sys.db.video_event_completions)
    ∧ (∀ q ∈ st.sys.db.video_progress, ¬(q.video_id = vid) → q ∈ st'.sys.db.video_progress)
    ∧ (∃ n, st'.trace = st.trace ++ (cascadeTrace st.sys.db vid).take n) := by
  cases hES : f.eventsSelectFail vid with
  | some m =>
    simp only [cascadeDeleteVideo, addOp, hES] at h
    obtain ⟨h1, h2⟩ := Prod.mk.inj h
    subst h1; subst h2
    refine ⟨rfl, rfl, rfl, ?_, ?_, List.Sublist.refl _, fun a ha _ => ha, fun a ha _ => ha,
      fun a ha _ => ha, fun a ha _ => ha, fun a ha _ => ha, fun a ha _ => ha, fun a ha _ => ha,
      ⟨1, by simp [cascadeTrace]⟩⟩
    · intro e he; cases he <;> exact ⟨rfl, rfl⟩
    · intro h0; cases h0
  | none =>
    simp only [cascadeDeleteVideo, hES, addOp_sys] at h
    by_cases hE : 0 < (eventIdsOf st.sys.db vid).length
    · rw [if_pos hE] at h
      cases hch : cascadeChildren f vid (eventIdsOf st.sys.db vid) (addOp st (.selectEvents vid)) with
      | mk stc rc =>
        rw [hch] at h
        obtain ⟨cS, cC, cU, cV, cP, cE, cOk, cSub, cEv, cQ, cQA, cEL, cCP, cTr⟩ :=
          children_spec _ _ _ _ _ _ hch
        simp only [addOp_sys, addOp_trace] at cS cC cU cV cP cOk cSub cEv cQ cQA cEL cCP cTr
        cases rc with
        | error e0 =>
          simp only [seqStep] at h
          obtain ⟨h1, h2⟩ := Prod.mk.inj h
          subst h1; subst h2
          obtain ⟨nc, hnc, hstc⟩ := cTr
          refine ⟨cS, cC, cU, ?_, ?_, cSub, ?_, cEv, cQ, cQA, cEL, cCP, ?_, ⟨nc + 1, ?_⟩⟩
          · intro e he; cases he <;> exact ⟨cE _ rfl, cV⟩
          · intro h0; cases h0
          · intro a ha _; rw [cV]; exact ha
          · intro a ha _; rw [cP]; exact ha
          · rw [hstc, cascadeTrace]
            simp only [if_pos hE, List.take_succ_cons]
            rw [List.take_append_of_le_length (by simpa [childTraceOps] using hnc : nc ≤ (childTraceOps vid (eventIdsOf st.sys.db vid)).length)]
            simp [List.append_assoc]
        | ok u =>
          cases u
          simp only [seqStep] at h
          obtain ⟨cdb, ctr⟩ := cOk rfl
          cases hPR : f.progressDeleteFail vid with
          | some m2 =>
            simp only [delStep, seqStep, addOp, hPR] at h
            obtain ⟨h1, h2⟩ := Prod.mk.inj h
            subst h1; subst h2
            refine ⟨cS, cC, cU, ?_, ?_, cSub, ?_, cEv, cQ, cQA, cEL, cCP, ?_, ⟨7, ?_⟩⟩
            · intro e he; cases he <;> exact ⟨rfl, cV⟩
            · intro h0; cases h0
            · intro a ha _; rw [cV]; exact ha
            · intro a ha _; rw [cP]; exact ha
            · rw [ctr, cascadeTrace]
              simp [if_pos hE, childTraceOps, List.append_assoc]
          | none =>
            cases hVD : f.videoDeleteFail vid with
            | some m3 =>
              simp only [delStep, seqStep, addOp, hPR, hVD] at h
              obtain ⟨h1, h2⟩ := Prod.mk.inj h
              subst h1; subst h2
              refine ⟨cS, cC, cU, ?_, ?_, cSub, ?_, cEv, ?_, ?_, ?_, ?_, ?_, ⟨8, ?_⟩⟩
              · intro e he; cases he <;> exact ⟨rfl, cV⟩
              · intro h0; cases h0
              · intro a ha _; rw [cV]; exact ha
              · intro a ha hp; exact cQ a ha hp
              · intro a ha hp; exact cQA a ha hp
              · intro a ha hp; exact cEL a ha hp
              · intro a ha hp; exact cCP a ha hp
              · intro a ha hp
                have := cP ▸ ha
                simp only [List.mem_filter]
                exact ⟨by rw [cP]; exact ha, by simp [hp]⟩
              · rw [ctr, cascadeTrace]
                simp [if_pos hE, childTraceOps, List.append_assoc]
            | none =>
              simp only [delStep, seqStep, addOp, hPR, hVD] at h
              obtain ⟨h1, h2⟩ := Prod.mk.inj h
              subst h1; subst h2
              refine ⟨cS, cC, cU, ?_, ?_, cSub, ?_, cEv, ?_, ?_, ?_, ?_, ?_, ⟨9, ?_⟩⟩
              · intro e he; cases he
              · intro h0
                constructor
                · rw [cdb]
                  simp [cascadeEffect, if_pos hE]
                · rw [ctr, cascadeTrace]
                  simp [if_pos hE, childTraceOps, List.append_assoc]
              · intro a ha hne
                simp only [List.mem_filter]
                refine ⟨by rw [cV]; exact ha, by simp [hne]⟩
              · intro a ha hp; exact cQ a ha hp
              · intro a ha hp; exact cQA a ha hp
              · intro a ha hp; exact cEL a ha hp
              · intro a ha hp; exact cCP a ha hp
              · intro a ha hp
                simp only [List.mem_filter]
                exact ⟨by rw [cP]; exact ha, by simp [hp]⟩
              · rw [ctr, cascadeTrace]
                simp [if_pos hE, childTraceOps, List.append_assoc]
    · rw [if_neg hE] at h
      simp only [seqStep] at h
      cases hPR : f.progressDeleteFail vid with
      | some m2 =>
        simp only [delStep, seqStep, addOp, hPR] at h
        obtain ⟨h1, h2⟩ := Prod.mk.inj h
        subst h1; subst h2
        refine ⟨rfl, rfl, rfl, ?_, ?_, List.Sublist.refl _, fun a ha _ => ha, fun a ha _ => ha,
          fun a ha _ => ha, fun a ha _ => ha, fun a ha _ => ha, fun a ha _ => ha, fun a ha _ => ha,
          ⟨2, ?_⟩⟩
        · intro e he; cases he <;> exact ⟨rfl, rfl⟩
        · intro h0; cases h0
        · rw [cascadeTrace]
          simp [if_neg hE, List.append_assoc]
      | none =>
        cases hVD : f.videoDeleteFail vid with
        | some m3 =>
          simp only [delStep, seqStep, addOp, hPR, hVD] at h
          obtain ⟨h1, h2⟩ := Prod.mk.inj h
          subst h1; subst h2
          refine ⟨rfl, rfl, rfl, ?_, ?_, List.Sublist.refl _, fun a ha _ => ha, fun a ha _ => ha,
            fun a ha _ => ha, fun a ha _ => ha, fun a ha _ => ha, fun a ha _ => ha, ?_, ⟨3, ?_⟩⟩
          · intro e he; cases he <;> exact ⟨rfl, rfl⟩
          · intro h0; cases h0
          · intro a ha hp
            simp only [List.mem_filter]
            exact ⟨ha, by simp [hp]⟩
          · rw [cascadeTrace]
            simp [if_neg hE, List.append_assoc]
        | none =>
          simp only [delStep, seqStep, addOp, hPR, hVD] at h
          obtain ⟨h1, h2⟩ := Prod.mk.inj h
          subst h1; subst h2
          refine ⟨rfl, rfl, rfl, ?_, ?_, List.Sublist.refl _, ?_, fun a ha _ => ha,
            fun a ha _ => ha, fun a ha _ => ha, fun a ha _ => ha, fun a ha _ => ha, ?_, ⟨3, ?_⟩⟩
          · intro e he; cases he
          · intro h0
            constructor
            · simp [cascadeEffect, if_neg hE]
            · rw [cascadeTrace]
              simp [if_neg hE, List.append_assoc]
          · intro a ha hne
            simp only [List.mem_filter]
            exact ⟨ha, by simp [hne]⟩
          · intro a ha hp
            simp only [List.mem_filter]
            exact ⟨ha, by simp [hp]⟩
          · rw [cascadeTrace]
            simp [if_neg hE, List.append_assoc]

lemma cascade_ok_of_faultFree (f : Faults) (st : RunSt) (vid : String)
    (hff : cascadeFaultFree f vid = true) :
    (cascadeDeleteVideo f st vid).2 = .ok () := by
  simp only [cascadeFaultFree, Bool.and_eq_true, Option.isNone_iff_eq_none] at hff
  obtain ⟨⟨⟨⟨⟨⟨⟨e1, e2⟩, e3⟩, e4⟩, e5⟩, e6⟩, e7⟩, e8⟩ := hff
  simp only [cascadeDeleteVideo, cascadeChildren, delStep, seqStep, addOp,
    e1, e2, e3, e4, e5, e6, e7, e8]
  by_cases hE : (eventIdsOf st.sys.db vid).length > 0
  · rw [if_pos hE]
  · rw [if_neg hE]

/-- If the event ids of the whole table are distinct, an event-child row
that references an event of video `tid` is never matched by the event-id
set of a different video `vid`. -/
lemma eventIds_contains_false (db : DB) (vid tid eid : String)
    (hN : (db.timeline_events.map EventRow.id).Nodup)
    (hev : ∃ ev ∈ db.timeline_events, ev.video_id = tid ∧ eid = ev.id)
    (hne : ¬(vid = tid)) :
    (eventIdsOf db vid).contains eid = false := by
  obtain ⟨ev, hmem, hvid, hid⟩ := hev
  by_contra hc
  rw [Bool.not_eq_false] at hc
  have hc' : eid ∈ eventIdsOf db vid := by simpa using hc
  rw [eventIdsOf] at hc'
  simp only [List.mem_filter, List.mem_map] at hc'
  have hc := hc'
  obtain ⟨⟨ev', ⟨hmem', hvid'⟩, hid'⟩, -⟩ := hc
  have hee : ev' = ev :=
    List.inj_on_of_nodup_map hN hmem' hmem (by rw [hid']; exact hid)
  subst hee
  rw [beq_iff_eq] at hvid'
  exact hne (hvid'.symm.trans hvid)

lemma processVideos_append (f : Faults) (st : RunSt) (l1 l2 : List VideoRow) :
    processVideos f st (l1 ++ l2) =
      seqStep (processVideos f st l1) (fun st => processVideos f st l2) := by
  induction l1 generalizing st with
  | nil => simp [processVideos, seqStep]
  | cons v rest ih =>
    simp only [List.cons_append, processVideos]
    by_cases hid : (v.id == "") = true
    · simp only [if_pos hid]
      exact ih st
    · simp only [if_neg hid]
      rcases hc : cascadeDeleteVideo f st v.id with ⟨st1, r1⟩
      cases r1 with
      | error e => simp [seqStep]
      | ok u =>
        cases u
        dsimp only
        cases hvp : videoPathOf v with
        | none => exact ih st1
        | some p =>
          dsimp only
          rcases hsr : storageRemove f st1 "videos" p with ⟨st2, r2⟩
          cases r2 with
          | error e => simp [seqStep]
          | ok u2 => cases u2; exact ih st2

lemma pv_spec (f : Faults) (vs : List VideoRow) (st st' : RunSt)
    (r : Except (Nat × String) Unit) (h : processVideos f st vs = (st', r)) :
    st'.sys.db.courses = st.sys.db.courses
    ∧ st'.sys.db.user_roles = st.sys.db.user_roles
    ∧ st'.sys.db.timeline_events.Sublist st.sys.db.timeline_events
    ∧ (∀ e, r = .error e → e.1 = 500)
    ∧ ((st.sys.db.timeline_events.map EventRow.id).Nodup →
        ∀ vt : VideoRow, (∀ u ∈ vs, ¬(u.id = vt.id)) →
          (vt ∈ st.sys.db.videos → vt ∈ st'.sys.db.videos)
          ∧ (∀ ev ∈ st.sys.db.timeline_events, ev.video_id = vt.id →
              ev ∈ st'.sys.db.timeline_events)
          ∧ (∀ q ∈ st.sys.db.quizzes,
              (∃ ev ∈ st.sys.db.timeline_events, ev.video_id = vt.id ∧ q.event_id = ev.id) →
              q ∈ st'.sys.db.quizzes)
          ∧ (∀ q ∈ st.sys.db.quiz_attempts,
              (∃ ev ∈ st.sys.db.timeline_events, ev.video_id = vt.id ∧ q.event_id = ev.id) →
              q ∈ st'.sys.db.quiz_attempts)
          ∧ (∀ q ∈ st.sys.db.exam_launches,
              (∃ ev ∈ st.sys.db.timeline_events, ev.video_id = vt.id ∧ q.event_id = ev.id) →
              q ∈ st'.sys.db.exam_launches)
          ∧ (∀ q ∈ st.sys.db.video_event_completions,
              (∃ ev ∈ st.sys.db.timeline_events, ev.video_id = vt.id ∧ q.event_id = ev.id) →
              q ∈ st'.sys.db.video_event_completions)
          ∧ (∀ q ∈ st.sys.db.video_progress, q.video_id = vt.id →
              q ∈ st'.sys.db.video_progress)) := by
  induction vs generalizing st with
  | nil =>
    simp only [processVideos] at h
    obtain ⟨h1, h2⟩ := Prod.mk.inj h
    subst h1; subst h2
    refine ⟨rfl, rfl, List.Sublist.refl _, (by intro e he; cases he), ?_⟩
    exact fun _ vt _ => ⟨id, fun a ha _ => ha, fun a ha _ => ha, fun a ha _ => ha,
      fun a ha _ => ha, fun a ha _ => ha, fun a ha _ => ha⟩
  | cons v rest ih =>
    simp only [processVideos] at h
    by_cases hid : (v.id == "") = true
    · rw [if_pos hid] at h
      obtain ⟨c1, c2, c3, c4, c5⟩ := ih st h
      exact ⟨c1, c2, c3, c4,
        fun hN vt hu => c5 hN vt (fun u hu' => hu u (List.mem_cons_of_mem _ hu'))⟩
    · rw [if_neg hid] at h
      rcases hc : cascadeDeleteVideo f st v.id with ⟨st1, r1⟩
      rw [hc] at h
      obtain ⟨aS, aC, aU, aE, aOk, aSub, aV, aEv, aQ, aQA, aEL, aCP, aP, aTr⟩ :=
        cascade_spec _ _ _ _ _ hc
      cases r1 with
      | error e0 =>
        dsimp only at h
        obtain ⟨h1, h2⟩ := Prod.mk.inj h
        subst h1; subst h2
        refine ⟨aC, aU, aSub, ?_, ?_⟩
        · intro e he; cases he <;> exact (aE _ rfl).1
        · intro hN vt hu
          have hvne : ¬(v.id = vt.id) := hu v (List.mem_cons_self _ _)
          have hcf : ∀ eid, (∃ ev ∈ st.sys.db.timeline_events, ev.video_id = vt.id ∧ eid = ev.id) →
              (eventIdsOf st.sys.db v.id).contains eid = false :=
            fun eid hex => eventIds_contains_false _ _ _ _ hN hex hvne
          refine ⟨?_, ?_, ?_, ?_, ?_, ?_, ?_⟩
          · exact fun hvt => aV vt hvt (fun hh => hvne hh.symm)
          · exact fun ev hev heq => aEv ev hev (fun hh => hvne (hh.symm.trans heq))
          · exact fun q hq hex => aQ q hq (hcf q.event_id hex)
          · exact fun q hq hex => aQA q hq (hcf q.event_id hex)
          · exact fun q hq hex => aEL q hq (hcf q.event_id hex)
          · exact fun q hq hex => aCP q hq (hcf q.event_id hex)
          · exact fun q hq heq => aP q hq (fun hh => hvne (hh.symm.trans heq))
      | ok u =>
        cases u
        dsimp only at h
        have hN1of : (st.sys.db.timeline_events.map EventRow.id).Nodup →
            (st1.sys.db.timeline_events.map EventRow.id).Nodup :=
          fun hN => List.Nodup.sublist (List.Sublist.map EventRow.id aSub) hN
        cases hvp : videoPathOf v with
        | none =>
          rw [hvp] at h
          dsimp only at h
          obtain ⟨c1, c2, c3, c4, c5⟩ := ih st1 h
          refine ⟨c1.trans aC, c2.trans aU, c3.trans aSub, c4, ?_⟩
          intro hN vt hu
          have hvne : ¬(v.id = vt.id) := hu v (List.mem_cons_self _ _)
          have hcf : ∀ eid, (∃ ev ∈ st.sys.db.timeline_events, ev.video_id = vt.id ∧ eid = ev.id) →
              (eventIdsOf st.sys.db v.id).contains eid = false :=
            fun eid hex => eventIds_contains_false _ _ _ _ hN hex hvne
          obtain ⟨b1, b2, b3, b4, b5, b6, b7⟩ :=
            c5 (hN1of hN) vt (fun u hu' => hu u (List.mem_cons_of_mem _ hu'))
          refine ⟨?_, ?_, ?_, ?_, ?_, ?_, ?_⟩
          · exact fun hvt => b1 (aV vt hvt (fun hh => hvne hh.symm))
          · exact fun ev hev heq => b2 ev (aEv ev hev (fun hh => hvne (hh.symm.trans heq))) heq
          · exact fun q hq hex => b3 q (aQ q hq (hcf q.event_id hex))
              (by obtain ⟨ev, hev, hveq, hqe⟩ := hex
                  exact ⟨ev, aEv ev hev (fun hh => hvne (hh.symm.trans hveq)), hveq, hqe⟩)
          · exact fun q hq hex => b4 q (aQA q hq (hcf q.event_id hex))
              (by obtain ⟨ev, hev, hveq, hqe⟩ := hex
                  exact ⟨ev, aEv ev hev (fun hh => hvne (hh.symm.trans hveq)), hveq, hqe⟩)
          · exact fun q hq hex => b5 q (aEL q hq (hcf q.event_id hex))
              (by obtain ⟨ev, hev, hveq, hqe⟩ := hex
                  exact ⟨ev, aEv ev hev (fun hh => hvne (hh.symm.trans hveq)), hveq, hqe⟩)
          · exact fun q hq hex => b6 q (aCP q hq (hcf q.event_id hex))
              (by obtain ⟨ev, hev, hveq, hqe⟩ := hex
                  exact ⟨ev, aEv ev hev (fun hh => hvne (hh.symm.trans hveq)), hveq, hqe⟩)
          · exact fun q hq heq => b7 q (aP q hq (fun hh => hvne (hh.symm.trans heq))) heq
        | some p =>
          rw [hvp] at h
          dsimp only at h
          rcases hsr : storageRemove f st1 "videos" p with ⟨st2, r2⟩
          rw [hsr] at h
          obtain ⟨bD, bE, bTr⟩ := sr_spec _ _ _ _ _ _ hsr
          cases r2 with
          | error e0 =>
            dsimp only at h
            obtain ⟨h1, h2⟩ := Prod.mk.inj h
            subst h1; subst h2
            refine ⟨by rw [bD]; exact aC, by rw [bD]; exact aU, by rw [bD]; exact aSub, ?_, ?_⟩
            · intro e he; cases he <;> exact (bE _ rfl).1
            · intro hN vt hu
              have hvne : ¬(v.id = vt.id) := hu v (List.mem_cons_self _ _)
              have hcf : ∀ eid, (∃ ev ∈ st.sys.db.timeline_events, ev.video_id = vt.id ∧ eid = ev.id) →
                  (eventIdsOf st.sys.db v.id).contains eid = false :=
                fun eid hex => eventIds_contains_false _ _ _ _ hN hex hvne
              refine ⟨?_, ?_, ?_, ?_, ?_, ?_, ?_⟩
              · exact fun hvt => by rw [bD]; exact aV vt hvt (fun hh => hvne hh.symm)
              · exact fun ev hev heq => by
                  rw [bD]; exact aEv ev hev (fun hh => hvne (hh.symm.trans heq))
              · exact fun q hq hex => by rw [bD]; exact aQ q hq (hcf q.event_id hex)
              · exact fun q hq hex => by rw [bD]; exact aQA q hq (hcf q.event_id hex)
              · exact fun q hq hex => by rw [bD]; exact aEL q hq (hcf q.event_id hex)
              · exact fun q hq hex => by rw [bD]; exact aCP q hq (hcf q.event_id hex)
              · exact fun q hq heq => by
                  rw [bD]; exact aP q hq (fun hh => hvne (hh.symm.trans heq))
          | ok u2 =>
            cases u2
            dsimp only at h
            obtain ⟨c1, c2, c3, c4, c5⟩ := ih st2 h
            have d1 : st2.sys.db.courses = st.sys.db.courses := by rw [bD]; exact aC
            have d2 : st2.sys.db.user_roles = st.sys.db.user_roles := by rw [bD]; exact aU
            have d3 : st2.sys.db.timeline_events.Sublist st.sys.db.timeline_events := by
              rw [bD]; exact aSub
            refine ⟨c1.trans d1, c2.trans d2, c3.trans d3, c4, ?_⟩
            intro hN vt hu
            have hvne : ¬(v.id = vt.id) := hu v (List.mem_cons_self _ _)
            have hcf : ∀ eid, (∃ ev ∈ st.sys.db.timeline_events, ev.video_id = vt.id ∧ eid = ev.id) →
                (eventIdsOf st.sys.db v.id).contains eid = false :=
              fun eid hex => eventIds_contains_false _ _ _ _ hN hex hvne
            have hN2 : (st2.sys.db.timeline_events.map EventRow.id).Nodup := by
              rw [bD]; exact hN1of hN
            obtain ⟨b1, b2, b3, b4, b5, b6, b7⟩ :=
              c5 hN2 vt (fun u hu' => hu u (List.mem_cons_of_mem _ hu'))
            rw [bD] at b1 b2 b3 b4 b5 b6 b7
            refine ⟨?_, ?_, ?_, ?_, ?_, ?_, ?_⟩
            · exact fun hvt => b1 (aV vt hvt (fun hh => hvne hh.symm))
            · exact fun ev hev heq => b2 ev (aEv ev hev (fun hh => hvne (hh.symm.trans heq))) heq
            · exact fun q hq hex => b3 q (aQ q hq (hcf q.event_id hex))
                (by obtain ⟨ev, hev, hveq, hqe⟩ := hex
                    exact ⟨ev, aEv ev hev (fun hh => hvne (hh.symm.trans hveq)), hveq, hqe⟩)
            · exact fun q hq hex => b4 q (aQA q hq (hcf q.event_id hex))
                (by obtain ⟨ev, hev, hveq, hqe⟩ := hex
                    exact ⟨ev, aEv ev hev (fun hh => hvne (hh.symm.trans hveq)), hveq, hqe⟩)
            · exact fun q hq hex => b5 q (aEL q hq (hcf q.event_id hex))
                (by obtain ⟨ev, hev, hveq, hqe⟩ := hex
                    exact ⟨ev, aEv ev hev (fun hh => hvne (hh.symm.trans hveq)), hveq, hqe⟩)
            · exact fun q hq hex => b6 q (aCP q hq (hcf q.event_id hex))
                (by obtain ⟨ev, hev, hveq, hqe⟩ := hex
                    exact ⟨ev, aEv ev hev (fun hh => hvne (hh.symm.trans hveq)), hveq, hqe⟩)
            · exact fun q hq heq => b7 q (aP q hq (fun hh => hvne (hh.symm.trans heq))) heq

lemma ens_spec (f : Faults) (st : RunSt) (u vid : String) (st' : RunSt)
    (r : Except (Nat × String) VideoRow) (h : ensureCanDeleteVideo f st u vid = (st', r)) :
    st'.sys = st.sys
    ∧ (∀ v, r = .ok v → st.sys.db.videos.filter (fun x => x.id == vid) = [v]
        ∧ canDelete st.sys.db u v.owner_id = true ∧ f.videoFetchFail = none ∧ f.rolesFail = none
        ∧ st'.trace = st.trace ++ [.selectVideo vid, .selectRoles u])
    ∧ (∀ e, r = .error e → e.1 = 500 ∨ e.1 = 404 ∨ e.1 = 403) := by
  cases hVF : f.videoFetchFail with
  | some m =>
    simp only [ensureCanDeleteVideo, addOp, hVF] at h
    obtain ⟨h1, h2⟩ := Prod.mk.inj h
    subst h1; subst h2
    refine ⟨rfl, ?_, ?_⟩
    · intro v hv; cases hv
    · intro e he; cases he <;> exact Or.inl rfl
  | none =>
    simp only [ensureCanDeleteVideo, addOp, hVF] at h
    rcases hfil : st.sys.db.videos.filter (fun x => x.id == vid) with - | ⟨v, - | ⟨v2, tl⟩⟩ <;>
      rw [hfil] at h <;> dsimp only at h
    · obtain ⟨h1, h2⟩ := Prod.mk.inj h
      subst h1; subst h2
      refine ⟨rfl, ?_, ?_⟩
      · intro v hv; cases hv
      · intro e he; cases he <;> exact Or.inr (Or.inl rfl)
    · cases hRF : f.rolesFail with
      | some m2 =>
        rw [hRF] at h; dsimp only at h
        obtain ⟨h1, h2⟩ := Prod.mk.inj h
        subst h1; subst h2
        refine ⟨rfl, ?_, ?_⟩
        · intro v' hv; cases hv
        · intro e he; cases he <;> exact Or.inl rfl
      | none =>
        rw [hRF] at h; dsimp only at h
        by_cases hcd : canDelete st.sys.db u v.owner_id = true
        · rw [if_pos hcd] at h
          obtain ⟨h1, h2⟩ := Prod.mk.inj h
          subst h1; subst h2
          refine ⟨rfl, ?_, ?_⟩
          · intro v' hv
            cases hv
            exact ⟨hfil, hcd, rfl, rfl, by simp⟩
          · intro e he; cases he
        · rw [if_neg hcd] at h
          obtain ⟨h1, h2⟩ := Prod.mk.inj h
          subst h1; subst h2
          refine ⟨rfl, ?_, ?_⟩
          · intro v' hv; cases hv
          · intro e he; cases he <;> exact Or.inr (Or.inr rfl)
    · obtain ⟨h1, h2⟩ := Prod.mk.inj h
      subst h1; subst h2
      refine ⟨rfl, ?_, ?_⟩
      · intro v' hv; cases hv
      · intro e he; cases he <;> exact Or.inl rfl

/-- A 200 response from the delete-video handler (on a POST request whose
body named `vid`) means the whole cascade for `vid` ran: the final
database is exactly `cascadeEffect` of the initial one. -/
lemma deleteVideo_200 (f : Faults) (sys : Sys) (req : Req) (vid : String)
    (st' : RunSt) (resp : Resp)
    (hm : req.method = "POST")
    (hb : requestIdField "Missing videoId" req.body = .ok vid)
    (h : deleteVideoHandler true f sys req = (st', resp))
    (h200 : resp.status = 200) :
    st'.sys.db = cascadeEffect sys.db vid := by
  have hOpt : (("POST" : String) == "OPTIONS") = false := rfl
  have hPost : (("POST" : String) == "POST") = true := rfl
  simp only [deleteVideoHandler, hm, hOpt, hPost, Bool.not_true, Bool.false_eq_true,
    if_false, ite_false, ite_true, Bool.not_false] at h
  cases hau : req.auth with
  | none =>
    rw [hau] at h; dsimp only at h
    obtain ⟨h1, h2⟩ := Prod.mk.inj h
    subst h1; subst h2
    simp at h200
  | some userId =>
    rw [hau] at h; dsimp only at h
    rw [hb] at h; dsimp only at h
    rcases hens : ensureCanDeleteVideo f ⟨sys, []⟩ userId vid with ⟨st1, r1⟩
    rw [hens] at h
    obtain ⟨eSys, eOk, eErr⟩ := ens_spec _ _ _ _ _ _ hens
    cases r1 with
    | error e0 =>
      obtain ⟨es, em⟩ := e0
      dsimp only at h
      obtain ⟨h1, h2⟩ := Prod.mk.inj h
      subst h1; subst h2
      rcases eErr _ rfl with h5 | h5 | h5 <;> simp_all
    | ok v =>
      dsimp only at h
      rcases hcas : cascadeDeleteVideo f st1 vid with ⟨st2, r2⟩
      rw [hcas] at h
      obtain ⟨cS, cC, cU, cE, cOk, -⟩ := cascade_spec _ _ _ _ _ hcas
      cases r2 with
      | error e0 =>
        obtain ⟨es, em⟩ := e0
        dsimp only at h
        obtain ⟨h1, h2⟩ := Prod.mk.inj h
        subst h1; subst h2
        have := (cE _ rfl).1
        simp_all
      | ok u =>
        cases u
        dsimp only at h
        have hdb : st2.sys.db = cascadeEffect sys.db vid := by
          rw [(cOk rfl).1, eSys]
        cases hvp : videoPathOf v with
        | none =>
          rw [hvp] at h; dsimp only at h
          obtain ⟨h1, h2⟩ := Prod.mk.inj h
          subst h1; subst h2
          exact hdb
        | some p =>
          rw [hvp] at h; dsimp only at h
          rcases hsr : storageRemove f st2 "videos" p with ⟨st3, r3⟩
          rw [hsr] at h
          obtain ⟨bD, bE, bTr⟩ := sr_spec _ _ _ _ _ _ hsr
          cases r3 with
          | error e0 =>
            obtain ⟨es, em⟩ := e0
            dsimp only at h
            obtain ⟨h1, h2⟩ := Prod.mk.inj h
            subst h1; subst h2
            have := (bE _ rfl).1
            simp_all
          | ok u2 =>
            cases u2
            dsimp only at h
            obtain ⟨h1, h2⟩ := Prod.mk.inj h
            subst h1; subst h2
            rw [bD]
            exact hdb

/-- Pure completeness of a successful cascade: no event of the video, no
event-child row referencing one of its event ids, no progress row, and no
video row survives `cascadeEffect` — provided the video's event ids are
all non-empty (so that `.filter(Boolean)` drops none of them). -/
lemma cascadeEffect_complete (db : DB) (vid : String)
    (hids : ∀ ev ∈ db.timeline_events, ev.video_id = vid → ¬(ev.id = "")) :
    ((cascadeEffect db vid).timeline_events.filter (fun ev => ev.video_id == vid) = [])
    ∧ ((cascadeEffect db vid).quizzes.filter (fun q =>
        ((db.timeline_events.filter (fun ev => ev.video_id == vid)).map EventRow.id).contains q.event_id) = [])
    ∧ ((cascadeEffect db vid).quiz_attempts.filter (fun q =>
        ((db.timeline_events.filter (fun ev => ev.video_id == vid)).map EventRow.id).contains q.event_id) = [])
    ∧ ((cascadeEffect db vid).exam_launches.filter (fun q =>
        ((db.timeline_events.filter (fun ev => ev.video_id == vid)).map EventRow.id).contains q.event_id) = [])
    ∧ ((cascadeEffect db vid).video_event_completions.filter (fun q =>
        ((db.timeline_events.filter (fun ev => ev.video_id == vid)).map EventRow.id).contains q.event_id) = [])
    ∧ ((cascadeEffect db vid).video_progress.filter (fun p => p.video_id == vid) = [])
    ∧ ((cascadeEffect db vid).videos.filter (fun v => v.id == vid) = []) := by
  by_cases hF : db.timeline_events.filter (fun ev => ev.video_id == vid) = []
  · have hE : eventIdsOf db vid = [] := by simp [eventIdsOf, hF]
    refine ⟨?_, ?_, ?_, ?_, ?_, ?_, ?_⟩ <;>
      simp [cascadeEffect, hE, hF, filter_not_filter_nil]
  · have hE : eventIdsOf db vid =
        (db.timeline_events.filter (fun ev => ev.video_id == vid)).map EventRow.id := by
      rw [eventIdsOf, List.filter_eq_self]
      intro a ha
      rw [List.mem_map] at ha
      obtain ⟨ev, hev, hevid⟩ := ha
      rw [List.mem_filter, beq_iff_eq] at hev
      have := hids ev hev.1 hev.2
      subst hevid
      simpa using this
    have hlen : 0 < (eventIdsOf db vid).length := by
      rw [hE, List.length_map]
      exact List.length_pos.mpr hF
    refine ⟨?_, ?_, ?_, ?_, ?_, ?_, ?_⟩ <;>
      simp only [cascadeEffect, if_pos hlen, ← hE, filter_not_filter_nil]

lemma cascadeEffect_videos_nil (db : DB) (vid : String) :
    (cascadeEffect db vid).videos.filter (fun v => v.id == vid) = [] := by
  simp only [cascadeEffect, filter_not_filter_nil]

lemma ens_404 (f : Faults) (st : RunSt) (u vid : String)
    (hVF : f.videoFetchFail = none)
    (hfil : st.sys.db.videos.filter (fun x => x.id == vid) = []) :
    ensureCanDeleteVideo f st u vid =
      (addOp st (.selectVideo vid), .error (404, "Video not found")) := by
  simp only [ensureCanDeleteVideo, addOp_sys, hVF, hfil]

/-- Claim C2: if a POST DeleteVideo request naming video `vid` returns
success (HTTP 200), then afterwards no `timeline_events` row for `vid`
survives, no row of `quizzes`, `quiz_attempts`, `exam_launches` or
`video_event_completions` referencing any of that video's event ids
survives, no `video_progress` row for `vid` survives, and the video row
itself is gone.  (Event ids are assumed non-empty, as the database's
primary keys are; `.filter(Boolean)` would drop an empty id.) -/
theorem deleteVideo_cascade_complete
    (f : Faults) (sys : Sys) (req : Req) (vid : String) (st' : RunSt) (resp : Resp)
    (hm : req.method = "POST")
    (hb : requestIdField "Missing videoId" req.body = .ok vid)
    (hids : ∀ ev ∈ sys.db.timeline_events, ev.video_id = vid → ¬(ev.id = ""))
    (h : deleteVideoHandler true f sys req = (st', resp))
    (h200 : resp.status = 200) :
    (st'.sys.db.timeline_events.filter (fun ev => ev.video_id == vid) = [])
    ∧ (st'.sys.db.quizzes.filter (fun q =>
        ((sys.db.timeline_events.filter (fun ev => ev.video_id == vid)).map EventRow.id).contains q.event_id) = [])
    ∧ (st'.sys.db.quiz_attempts.filter (fun q =>
        ((sys.db.timeline_events.filter (fun ev => ev.video_id == vid)).map EventRow.id).contains q.event_id) = [])
    ∧ (st'.sys.db.exam_launches.filter (fun q =>
        ((sys.db.timeline_events.filter (fun ev => ev.video_id == vid)).map EventRow.id).contains q.event_id) = [])
    ∧ (st'.sys.db.video_event_completions.filter (fun q =>
        ((sys.db.timeline_events.filter (fun ev => ev.video_id == vid)).map EventRow.id).contains q.event_id) = [])
    ∧ (st'.sys.db.video_progress.filter (fun p => p.video_id == vid) = [])
    ∧ (st'.sys.db.videos.filter (fun v => v.id == vid) = []) := by
  rw [deleteVideo_200 f sys req vid st' resp hm hb h h200]
  exact cascadeEffect_complete sys.db vid hids

/-- Claim C8: running DeleteVideo twice in sequence with the same request
(same `vid`), where the first call succeeded, makes the second call answer
404 Not Found — never 500 — with no row deleted or resurrected (the system
state is returned unchanged) and with the non-existence detected by the
initial resource fetch: the second call's trace is the single
`videos` select, no cascade step runs. -/
theorem deleteVideo_idempotent_404
    (f1 f2 : Faults) (sys : Sys) (req : Req) (userId vid : String)
    (st1 : RunSt) (resp1 : Resp)
    (hm : req.method = "POST")
    (hau : req.auth = some userId)
    (hb : requestIdField "Missing videoId" req.body = .ok vid)
    (h1 : deleteVideoHandler true f1 sys req = (st1, resp1))
    (h200 : resp1.status = 200)
    (hVF2 : f2.videoFetchFail = none) :
    deleteVideoHandler true f2 st1.sys req =
      (⟨st1.sys, [Op.selectVideo vid]⟩, ⟨404, some "Video not found"⟩) := by
  have hgone : st1.sys.db.videos.filter (fun x => x.id == vid) = [] := by
    rw [deleteVideo_200 f1 sys req vid st1 resp1 hm hb h1 h200]
    exact cascadeEffect_videos_nil sys.db vid
  have hOpt : (("POST" : String) == "OPTIONS") = false := rfl
  have hPost : (("POST" : String) == "POST") = true := rfl
  simp only [deleteVideoHandler, hm, hOpt, hPost, Bool.not_true, Bool.false_eq_true,
    if_false, ite_false, ite_true, Bool.not_false, hau, hb]
  rw [ens_404 f2 ⟨st1.sys, []⟩ userId vid hVF2 hgone]
  simp [addOp]

lemma filter_take_front (p : α → Bool) (l : List α) (n : Nat) :
    ∃ rest, l.filter p = (l.take n).filter p ++ rest := by
  refine ⟨(l.drop n).filter p, ?_⟩
  conv_lhs => rw [← List.take_append_drop n l]
  rw [List.filter_append]

lemma deleteOps_cascadeTrace (db : DB) (vid : String) :
    deleteOpsOf (cascadeTrace db vid) =
      (if (eventIdsOf db vid).length > 0 then childTraceOps vid (eventIdsOf db vid) else [])
        ++ [Op.deleteProgress vid, Op.deleteVideoRow vid] := by
  by_cases hE : (eventIdsOf db vid).length > 0 <;>
    simp [cascadeTrace, deleteOpsOf, childTraceOps, isDeleteOp, List.filter_append, hE]

/-- Claim C6: in the delete calls issued by `cascadeDeleteVideo`, children
always precede their parent.  The delete calls of any run (the trace
after the caller's `st.trace` prefix, restricted to deletes) form a prefix
of the canonical order `quizzes, quiz_attempts, exam_launches,
video_event_completions, timeline_events, video_progress, videos`
(the event-child block being present exactly when the video has events),
and a successful run issues exactly that sequence, the video-row delete
last. -/
theorem cascade_children_before_parents
    (f : Faults) (st st' : RunSt) (vid : String) (r : Except (Nat × String) Unit)
    (h : cascadeDeleteVideo f st vid = (st', r)) :
    (∃ rest,
        (if (eventIdsOf st.sys.db vid).length > 0
         then childTraceOps vid (eventIdsOf st.sys.db vid) else [])
          ++ [Op.deleteProgress vid, Op.deleteVideoRow vid] =
        deleteOpsOf (st'.trace.drop st.trace.length) ++ rest)
    ∧ (r = .ok () →
        deleteOpsOf (st'.trace.drop st.trace.length) =
          (if (eventIdsOf st.sys.db vid).length > 0
           then childTraceOps vid (eventIdsOf st.sys.db vid) else [])
            ++ [Op.deleteProgress vid, Op.deleteVideoRow vid]
        ∧ ∃ pre, deleteOpsOf (st'.trace.drop st.trace.length) = pre ++ [Op.deleteVideoRow vid]) := by
  obtain ⟨-, -, -, -, cOk, -, -, -, -, -, -, -, -, n, hTr⟩ := cascade_spec _ _ _ _ _ h
  constructor
  · rw [hTr, List.drop_left]
    obtain ⟨rest, hrest⟩ := filter_take_front isDeleteOp (cascadeTrace st.sys.db vid) n
    refine ⟨rest, ?_⟩
    rw [← deleteOps_cascadeTrace]
    exact hrest
  · intro hok
    obtain ⟨-, hTrOk⟩ := cOk hok
    rw [hTrOk, List.drop_left, deleteOps_cascadeTrace]
    refine ⟨rfl, ⟨(if (eventIdsOf st.sys.db vid).length > 0
      then childTraceOps vid (eventIdsOf st.sys.db vid) else []) ++ [Op.deleteProgress vid], ?_⟩⟩
    simp

lemma requestIdField_error_status (msg : String) (body : Option (Option String))
    (e : Nat × String) (h : requestIdField msg body = .error e) : e.1 = 400 := by
  unfold requestIdField at h
  cases body with
  | none =>
    injection h with h'
    rw [← h']
  | some b =>
    dsimp only at h
    split at h
    · injection h with h'
      rw [← h']
    · cases h

/-- The boolean authorization decision, in the spec's terms. -/
lemma canDelete_iff (db : DB) (u o : String) :
    canDelete db u o = true ↔
      ("admin" ∈ rolesOf db u ∨ ("teacher" ∈ rolesOf db u ∧ o = u)) := by
  simp [canDelete, Bool.or_eq_true, Bool.and_eq_true, beq_iff_eq]

lemma deleteVideo_200_authorized (f : Faults) (sys : Sys) (req : Req)
    (st' : RunSt) (resp : Resp)
    (hm : req.method = "POST")
    (h : deleteVideoHandler true f sys req = (st', resp))
    (h200 : resp.status = 200) :
    ∃ userId vid v, req.auth = some userId
      ∧ requestIdField "Missing videoId" req.body = .ok vid
      ∧ sys.db.videos.filter (fun x => x.id == vid) = [v]
      ∧ canDelete sys.db userId v.owner_id = true := by
  have hOpt : (("POST" : String) == "OPTIONS") = false := rfl
  have hPost : (("POST" : String) == "POST") = true := rfl
  simp only [deleteVideoHandler, hm, hOpt, hPost, Bool.not_true, Bool.false_eq_true,
    if_false, ite_false, ite_true, Bool.not_false] at h
  cases hau : req.auth with
  | none =>
    rw [hau] at h; dsimp only at h
    obtain ⟨h1, h2⟩ := Prod.mk.inj h
    subst h1; subst h2
    simp at h200
  | some userId =>
    rw [hau] at h; dsimp only at h
    cases hbC : requestIdField "Missing videoId" req.body with
    | error e0 =>
      rw [hbC] at h; dsimp only at h
      obtain ⟨es, em⟩ := e0
      dsimp only at h
      obtain ⟨h1, h2⟩ := Prod.mk.inj h
      subst h1; subst h2
      have := requestIdField_error_status _ _ _ hbC
      simp_all
    | ok vid =>
      rw [hbC] at h; dsimp only at h
      rcases hens : ensureCanDeleteVideo f ⟨sys, []⟩ userId vid with ⟨st1, r1⟩
      rw [hens] at h
      obtain ⟨eSys, eOk, eErr⟩ := ens_spec _ _ _ _ _ _ hens
      cases r1 with
      | error e0 =>
        obtain ⟨es, em⟩ := e0
        dsimp only at h
        obtain ⟨h1, h2⟩ := Prod.mk.inj h
        subst h1; subst h2
        rcases eErr _ rfl with h5 | h5 | h5 <;> simp_all
      | ok v =>
        obtain ⟨hfil, hcd, -⟩ := eOk v rfl
        exact ⟨userId, vid, v, rfl, rfl, hfil, hcd⟩

lemma deleteCourse_200_authorized (f : Faults) (sys : Sys) (req : Req)
    (st' : RunSt) (resp : Resp)
    (hm : req.method = "POST")
    (h : deleteCourseHandler true f sys req = (st', resp))
    (h200 : resp.status = 200) :
    ∃ userId cid c, req.auth = some userId
      ∧ requestIdField "Missing courseId" req.body = .ok cid
      ∧ sys.db.courses.filter (fun x => x.id == cid) = [c]
      ∧ canDelete sys.db userId c.owner_id = true := by
  have hOpt : (("POST" : String) == "OPTIONS") = false := rfl
  have hPost : (("POST" : String) == "POST") = true := rfl
  simp only [deleteCourseHandler, hm, hOpt, hPost, Bool.not_true, Bool.false_eq_true,
    if_false, ite_false, ite_true, Bool.not_false, addOp_sys] at h
  cases hau : req.auth with
  | none =>
    rw [hau] at h; dsimp only at h
    obtain ⟨h1, h2⟩ := Prod.mk.inj h
    subst h1; subst h2
    simp at h200
  | some userId =>
    rw [hau] at h; dsimp only at h
    cases hbC : requestIdField "Missing courseId" req.body with
    | error e0 =>
      rw [hbC] at h; dsimp only at h
      obtain ⟨es, em⟩ := e0
      dsimp only at h
      obtain ⟨h1, h2⟩ := Prod.mk.inj h
      subst h1; subst h2
      have := requestIdField_error_status _ _ _ hbC
      simp_all
    | ok cid =>
      rw [hbC] at h; dsimp only at h
      cases hCF : f.courseFetchFail with
      | some m =>
        rw [hCF] at h; dsimp only at h
        obtain ⟨h1, h2⟩ := Prod.mk.inj h
        subst h1; subst h2
        simp at h200
      | none =>
        rw [hCF] at h; dsimp only at h
        rcases hfil : sys.db.courses.filter (fun x => x.id == cid) with - | ⟨c, - | ⟨c2, tl⟩⟩ <;>
          rw [hfil] at h <;> dsimp only at h
        · obtain ⟨h1, h2⟩ := Prod.mk.inj h
          subst h1; subst h2
          simp at h200
        · cases hRF : f.rolesFail with
          | some m2 =>
            rw [hRF] at h; dsimp only at h
            obtain ⟨h1, h2⟩ := Prod.mk.inj h
            subst h1; subst h2
            simp at h200
          | none =>
            rw [hRF] at h; dsimp only at h
            by_cases hcd : canDelete sys.db userId c.owner_id = true
            · exact ⟨userId, cid, c, rfl, rfl, hfil, hcd⟩
            · rw [if_neg hcd] at h
              obtain ⟨h1, h2⟩ := Prod.mk.inj h
              subst h1; subst h2
              simp at h200
        · obtain ⟨h1, h2⟩ := Prod.mk.inj h
          subst h1; subst h2
          simp at h200

lemma ens_403 (f : Faults) (st : RunSt) (u vid : String) (v : VideoRow)
    (hVF : f.videoFetchFail = none)
    (hfil : st.sys.db.videos.filter (fun x => x.id == vid) = [v])
    (hRF : f.rolesFail = none)
    (hcd : canDelete st.sys.db u v.owner_id = false) :
    ensureCanDeleteVideo f st u vid =
      ({ st with trace := st.trace ++ [.selectVideo vid, .selectRoles u] }, .error (403, "Forbidden")) := by
  simp only [ensureCanDeleteVideo, addOp_sys, hVF, hfil, hRF, hcd, addOp]
  simp [List.append_assoc]

/-- Claim C1: for a POST DeleteVideo or DeleteCourse request whose target
exists, the operation succeeds only if the caller's role set contains
"admin", or contains "teacher" and the caller id equals the resource's
recorded owner id (success direction); and whenever the resource exists
(and its privileged fetch and the role fetch succeed) but the caller is in
neither position, the response is 403 Forbidden and the returned state is
the unchanged input state — no database row and no storage object is
modified (denial direction). -/
theorem delete_requires_admin_or_owner (f : Faults) (sys : Sys) (req : Req) :
    (∀ st' resp, req.method = "POST" → deleteVideoHandler true f sys req = (st', resp) →
      resp.status = 200 →
      ∃ userId vid v, req.auth = some userId
        ∧ requestIdField "Missing videoId" req.body = .ok vid
        ∧ sys.db.videos.filter (fun x => x.id == vid) = [v]
        ∧ ("admin" ∈ rolesOf sys.db userId ∨
            ("teacher" ∈ rolesOf sys.db userId ∧ v.owner_id = userId)))
    ∧ (∀ userId vid v, req.method = "POST" → req.auth = some userId →
        requestIdField "Missing videoId" req.body = .ok vid →
        f.videoFetchFail = none → f.rolesFail = none →
        sys.db.videos.filter (fun x => x.id == vid) = [v] →
        ¬("admin" ∈ rolesOf sys.db userId ∨
            ("teacher" ∈ rolesOf sys.db userId ∧ v.owner_id = userId)) →
        deleteVideoHandler true f sys req =
          (⟨sys, [Op.selectVideo vid, Op.selectRoles userId]⟩, ⟨403, some "Forbidden"⟩))
    ∧ (∀ st' resp, req.method = "POST" → deleteCourseHandler true f sys req = (st', resp) →
      resp.status = 200 →
      ∃ userId cid c, req.auth = some userId
        ∧ requestIdField "Missing courseId" req.body = .ok cid
        ∧ sys.db.courses.filter (fun x => x.id == cid) = [c]
        ∧ ("admin" ∈ rolesOf sys.db userId ∨
            ("teacher" ∈ rolesOf sys.db userId ∧ c.owner_id = userId)))
    ∧ (∀ userId cid c, req.method = "POST" → req.auth = some userId →
        requestIdField "Missing courseId" req.body = .ok cid →
        f.courseFetchFail = none → f.rolesFail = none →
        sys.db.courses.filter (fun x => x.id == cid) = [c] →
        ¬("admin" ∈ rolesOf sys.db userId ∨
            ("teacher" ∈ rolesOf sys.db userId ∧ c.owner_id = userId)) →
        deleteCourseHandler true f sys req =
          (⟨sys, [Op.selectCourse cid, Op.selectRoles userId]⟩, ⟨403, some "Forbidden"⟩)) := by
  have hOpt : (("POST" : String) == "OPTIONS") = false := rfl
  have hPost : (("POST" : String) == "POST") = true := rfl
  refine ⟨?_, ?_, ?_, ?_⟩
  · intro st' resp hm h h200
    obtain ⟨userId, vid, v, hau, hb, hfil, hcd⟩ := deleteVideo_200_authorized f sys req st' resp hm h h200
    exact ⟨userId, vid, v, hau, hb, hfil, (canDelete_iff sys.db userId v.owner_id).mp hcd⟩
  · intro userId vid v hm hau hb hVF hRF hfil hna
    have hcdF : canDelete sys.db userId v.owner_id = false := by
      rw [← Bool.not_eq_true]
      intro hh
      exact hna ((canDelete_iff sys.db userId v.owner_id).mp hh)
    simp only [deleteVideoHandler, hm, hOpt, hPost, Bool.not_true, Bool.false_eq_true,
      if_false, ite_false, ite_true, Bool.not_false, hau, hb]
    rw [ens_403 f ⟨sys, []⟩ userId vid v hVF hfil hRF hcdF]
    simp
  · intro st' resp hm h h200
    obtain ⟨userId, cid, c, hau, hb, hfil, hcd⟩ := deleteCourse_200_authorized f sys req st' resp hm h h200
    exact ⟨userId, cid, c, hau, hb, hfil, (canDelete_iff sys.db userId c.owner_id).mp hcd⟩
  · intro userId cid c hm hau hb hCF hRF hfil hna
    have hcdF : canDelete sys.db userId c.owner_id = false := by
      rw [← Bool.not_eq_true]
      intro hh
      exact hna ((canDelete_iff sys.db userId c.owner_id).mp hh)
    simp only [deleteCourseHandler, hm, hOpt, hPost, Bool.not_true, Bool.false_eq_true,
      if_false, ite_false, ite_true, Bool.not_false, hau, hb, hCF, addOp_sys, hfil, hRF, hcdF]
    simp [addOp]

/-- Claim C10: in both handlers caller-identity verification precedes body
parsing and validation, and no data-layer call precedes either gate: a
POST request with no verifiable identity is answered 401 — even when the
body is also malformed or missing — and a request with identity but an
invalid body is answered 400; in both cases the returned trace is empty
(no data-layer read or mutation was issued) and the state is unchanged. -/
theorem auth_before_body (f : Faults) (sys : Sys) (req : Req) (hm : req.method = "POST") :
    (req.auth = none →
      deleteVideoHandler true f sys req = (⟨sys, []⟩, ⟨401, some "Unauthorized"⟩)
      ∧ deleteCourseHandler true f sys req = (⟨sys, []⟩, ⟨401, some "Unauthorized"⟩))
    ∧ (∀ userId e, req.auth = some userId →
        requestIdField "Missing videoId" req.body = .error e →
        deleteVideoHandler true f sys req = (⟨sys, []⟩, ⟨e.1, some e.2⟩) ∧ e.1 = 400)
    ∧ (∀ userId e, req.auth = some userId →
        requestIdField "Missing courseId" req.body = .error e →
        deleteCourseHandler true f sys req = (⟨sys, []⟩, ⟨e.1, some e.2⟩) ∧ e.1 = 400) := by
  have hOpt : (("POST" : String) == "OPTIONS") = false := rfl
  have hPost : (("POST" : String) == "POST") = true := rfl
  refine ⟨?_, ?_, ?_⟩
  · intro hau
    constructor <;>
      simp [deleteVideoHandler, deleteCourseHandler, hm, hOpt, hPost, hau]
  · intro userId e hau hb
    obtain ⟨es, em⟩ := e
    refine ⟨?_, requestIdField_error_status _ _ _ hb⟩
    simp [deleteVideoHandler, hm, hOpt, hPost, hau, hb]
  · intro userId e hau hb
    obtain ⟨es, em⟩ := e
    refine ⟨?_, requestIdField_error_status _ _ _ hb⟩
    simp [deleteCourseHandler, hm, hOpt, hPost, hau, hb]

lemma ens_ok (f : Faults) (st : RunSt) (u vid : String) (v : VideoRow)
    (hVF : f.videoFetchFail = none)
    (hfil : st.sys.db.videos.filter (fun x => x.id == vid) = [v])
    (hRF : f.rolesFail = none)
    (hcd : canDelete st.sys.db u v.owner_id = true) :
    ensureCanDeleteVideo f st u vid =
      ({ st with trace := st.trace ++ [.selectVideo vid, .selectRoles u] }, .ok v) := by
  simp only [ensureCanDeleteVideo, addOp_sys, hVF, hfil, hRF, hcd, addOp]
  simp [List.append_assoc]

/-- Claim C7: on a fault-free authorized DeleteVideo of a video whose URL
resolves to storage path `p`, the storage removal is issued strictly after
every database delete of the cascade (it is the last call of the trace);
a removal error matching `/not.*found/i` still yields 200, a removal
success yields 200, and any other removal error yields 500 — but in every
one of these cases the database rows are already gone (the final database
is the full cascade effect; no video row remains): a dangling storage
object is possible, a dangling database row is not. -/
theorem storage_after_rows (f : Faults) (sys : Sys) (req : Req)
    (userId vid : String) (v : VideoRow) (p : String) (st' : RunSt) (resp : Resp)
    (hm : req.method = "POST")
    (hau : req.auth = some userId)
    (hb : requestIdField "Missing videoId" req.body = .ok vid)
    (hVF : f.videoFetchFail = none)
    (hfil : sys.db.videos.filter (fun x => x.id == vid) = [v])
    (hRF : f.rolesFail = none)
    (hcd : canDelete sys.db userId v.owner_id = true)
    (hff : cascadeFaultFree f vid = true)
    (hvp : videoPathOf v = some p)
    (h : deleteVideoHandler true f sys req = (st', resp)) :
    st'.sys.db = cascadeEffect sys.db vid
    ∧ st'.sys.db.videos.filter (fun x => x.id == vid) = []
    ∧ st'.trace = [Op.selectVideo vid, Op.selectRoles userId]
        ++ cascadeTrace sys.db vid ++ [Op.storageRemoveOp "videos" p]
    ∧ (f.storageRemove "videos" p = none → resp = ⟨200, none⟩)
    ∧ (∀ msg, f.storageRemove "videos" p = some msg → regexNotFound msg = true →
        resp = ⟨200, none⟩)
    ∧ (∀ msg, f.storageRemove "videos" p = some msg → regexNotFound msg = false →
        resp = ⟨500, some msg⟩) := by
  have hOpt : (("POST" : String) == "OPTIONS") = false := rfl
  have hPost : (("POST" : String) == "POST") = true := rfl
  simp only [deleteVideoHandler, hm, hOpt, hPost, Bool.not_true, Bool.false_eq_true,
    if_false, ite_false, ite_true, Bool.not_false, hau, hb] at h
  rw [ens_ok f ⟨sys, []⟩ userId vid v hVF hfil hRF hcd] at h
  dsimp only at h
  rcases hcas : cascadeDeleteVideo f ⟨sys, [] ++ [Op.selectVideo vid, Op.selectRoles userId]⟩ vid
    with ⟨st2, r2⟩
  rw [hcas] at h
  have hr2 : r2 = .ok () := by
    have := cascade_ok_of_faultFree f ⟨sys, [] ++ [Op.selectVideo vid, Op.selectRoles userId]⟩ vid hff
    rw [hcas] at this
    exact this
  subst hr2
  obtain ⟨cS, -, -, -, cOk, -⟩ := cascade_spec _ _ _ _ _ hcas
  obtain ⟨cdb, ctr⟩ := cOk rfl
  dsimp only at h
  rw [hvp] at h
  dsimp only at h
  cases hS : f.storageRemove "videos" p with
  | none =>
    simp only [storageRemove, addOp, hS] at h
    obtain ⟨h1, h2⟩ := Prod.mk.inj h
    subst h1; subst h2
    refine ⟨cdb, by rw [cdb]; exact cascadeEffect_videos_nil sys.db vid, ?_, ?_, ?_, ?_⟩
    · rw [ctr]; simp
    · intro _; rfl
    · intro msg hmsg; cases hmsg
    · intro msg hmsg; cases hmsg
  | some msg =>
    simp only [storageRemove, addOp, hS] at h
    by_cases hr : regexNotFound msg = true
    · rw [if_pos hr] at h
      obtain ⟨h1, h2⟩ := Prod.mk.inj h
      subst h1; subst h2
      refine ⟨cdb, by rw [cdb]; exact cascadeEffect_videos_nil sys.db vid, ?_, ?_, ?_, ?_⟩
      · rw [ctr]; simp
      · intro hnone; cases hnone
      · intro _ _ _; rfl
      · intro msg2 hmsg hrf
        injection hmsg with hmsg'
        subst hmsg'
        rw [hr] at hrf
        cases hrf
    · rw [if_neg hr] at h
      obtain ⟨h1, h2⟩ := Prod.mk.inj h
      subst h1; subst h2
      refine ⟨cdb, by rw [cdb]; exact cascadeEffect_videos_nil sys.db vid, ?_, ?_, ?_, ?_⟩
      · rw [ctr]; simp
      · intro hnone; cases hnone
      · intro msg2 hmsg hrf
        injection hmsg with hmsg'
        subst hmsg'
        rw [Bool.not_eq_true] at hr
        rw [hr] at hrf
        cases hrf
      · intro msg2 hmsg hrf
        injection hmsg with hmsg'
        subst hmsg'
        rfl

lemma take_id_ne (vs : List VideoRow) (hNv : (vs.map VideoRow.id).Nodup)
    (k j : Nat) (hj : j < vs.length) (hkj : k ≤ j) :
    ∀ u ∈ vs.take k, ¬(u.id = vs[j].id) := by
  intro u hu heq
  obtain ⟨i, hi, hieq⟩ := List.mem_iff_getElem.mp hu
  have hilen : i < vs.length := by
    rw [List.length_take] at hi
    omega
  have hik : i < k := by
    rw [List.length_take] at hi
    omega
  have hval : vs[i].id = vs[j].id := by
    rw [← heq, ← hieq, List.getElem_take]
  have hmi : (vs.map VideoRow.id).get ⟨i, by simpa using hilen⟩ =
      (vs.map VideoRow.id).get ⟨j, by simpa using hj⟩ := by
    simp only [List.get_eq_getElem, List.getElem_map]
    exact hval
  have hfin := (List.Nodup.get_inj_iff hNv).mp hmi
  have : i = j := congrArg Fin.val hfin
  omega

/-- Claim C3: in DeleteCourse, when the cascade of the `k`-th fetched video
fails (after the earlier videos were processed successfully), the whole
operation aborts at that point with that failure as a 500 response: the
course row is untouched, the failing video's row is still present, and
every video after it — together with all of its dependent rows — is fully
intact; the course row is deleted only on the all-cascades-succeeded path. -/
theorem deleteCourse_abort_on_cascade_failure
    (f : Faults) (sys : Sys) (req : Req) (userId cid : String) (c : CourseRow)
    (vs : List VideoRow) (k : Nat) (hk : k < vs.length)
    (stK stX : RunSt) (e : Nat × String)
    (hm : req.method = "POST")
    (hau : req.auth = some userId)
    (hb : requestIdField "Missing courseId" req.body = .ok cid)
    (hCF : f.courseFetchFail = none)
    (hfil : sys.db.courses.filter (fun x => x.id == cid) = [c])
    (hRF : f.rolesFail = none)
    (hcd : canDelete sys.db userId c.owner_id = true)
    (hVS : f.videosSelectFail = none)
    (hvs : vs = sys.db.videos.filter (fun v => v.course_id == cid))
    (hN : (sys.db.timeline_events.map EventRow.id).Nodup)
    (hNv : (vs.map VideoRow.id).Nodup)
    (hne : ∀ u ∈ vs, ¬(u.id = ""))
    (hpre : processVideos f
        ⟨sys, [Op.selectCourse cid, Op.selectRoles userId, Op.selectVideosOfCourse cid]⟩
        (vs.take k) = (stK, .ok ()))
    (hcas : cascadeDeleteVideo f stK (vs[k]).id = (stX, .error e)) :
    deleteCourseHandler true f sys req = (stX, ⟨e.1, some e.2⟩)
    ∧ e.1 = 500
    ∧ stX.sys.db.courses = sys.db.courses
    ∧ vs[k] ∈ stX.sys.db.videos
    ∧ (∀ j (hj : j < vs.length), k < j →
        vs[j] ∈ stX.sys.db.videos
        ∧ (∀ ev ∈ sys.db.timeline_events, ev.video_id = (vs[j]).id →
            ev ∈ stX.sys.db.timeline_events)
        ∧ (∀ q ∈ sys.db.quizzes,
            (∃ ev ∈ sys.db.timeline_events, ev.video_id = (vs[j]).id ∧ q.event_id = ev.id) →
            q ∈ stX.sys.db.quizzes)
        ∧ (∀ q ∈ sys.db.quiz_attempts,
            (∃ ev ∈ sys.db.timeline_events, ev.video_id = (vs[j]).id ∧ q.event_id = ev.id) →
            q ∈ stX.sys.db.quiz_attempts)
        ∧ (∀ q ∈ sys.db.exam_launches,
            (∃ ev ∈ sys.db.timeline_events, ev.video_id = (vs[j]).id ∧ q.event_id = ev.id) →
            q ∈ stX.sys.db.exam_launches)
        ∧ (∀ q ∈ sys.db.video_event_completions,
            (∃ ev ∈ sys.db.timeline_events, ev.video_id = (vs[j]).id ∧ q.event_id = ev.id) →
            q ∈ stX.sys.db.video_event_completions)
        ∧ (∀ q ∈ sys.db.video_progress, q.video_id = (vs[j]).id →
            q ∈ stX.sys.db.video_progress)) := by
  obtain ⟨pC, pU, pSub, pE, pPres⟩ := pv_spec f (vs.take k) _ _ _ hpre
  obtain ⟨aS, aC, aU, aE, aOk, aSub, aV, aEv, aQ, aQA, aEL, aCP, aP, aTr⟩ :=
    cascade_spec _ _ _ _ _ hcas
  have hkid : ¬((vs[k]).id = "") := hne _ (List.getElem_mem hk)
  have hloop : processVideos f
      ⟨sys, [Op.selectCourse cid, Op.selectRoles userId, Op.selectVideosOfCourse cid]⟩ vs =
      (stX, .error e) := by
    conv_lhs => rw [← List.take_append_drop k vs]
    rw [processVideos_append, hpre]
    show processVideos f stK (vs.drop k) = _
    rw [List.drop_eq_getElem_cons hk]
    simp only [processVideos]
    rw [if_neg (by simpa using hkid), hcas]
  have hNK : (stK.sys.db.timeline_events.map EventRow.id).Nodup :=
    List.Nodup.sublist (List.Sublist.map EventRow.id pSub) hN
  have hkj_ne : ∀ j (hj : j < vs.length), k ≠ j → ¬((vs[k]).id = (vs[j]).id) := by
    intro j hj hkj heq
    have hmi : (vs.map VideoRow.id).get ⟨k, by simpa using hk⟩ =
        (vs.map VideoRow.id).get ⟨j, by simpa using hj⟩ := by
      simp only [List.get_eq_getElem, List.getElem_map]
      exact heq
    exact hkj (congrArg Fin.val ((List.Nodup.get_inj_iff hNv).mp hmi))
  have hsubset : ∀ u ∈ vs, u ∈ sys.db.videos := by
    intro u hu
    rw [hvs] at hu
    exact (List.mem_filter.mp hu).1
  refine ⟨?_, (aE e rfl).1, ?_, ?_, ?_⟩
  · have hOpt : (("POST" : String) == "OPTIONS") = false := rfl
    have hPost : (("POST" : String) == "POST") = true := rfl
    obtain ⟨es, em⟩ := e
    simp only [deleteCourseHandler, hm, hOpt, hPost, Bool.not_true, Bool.false_eq_true,
      if_false, ite_false, ite_true, Bool.not_false, hau, hb, hCF, addOp_sys, hfil, hRF,
      hcd, hVS, addOp, ← hvs]
    simp only [List.cons_append, List.nil_append]
    simp only [hloop]
  · rw [aC, pC]
  · have hvk_mem : vs[k] ∈ sys.db.videos := hsubset _ (List.getElem_mem hk)
    have hpresK := pPres hN (vs[k]) (take_id_ne vs hNv k k hk (le_refl k))
    have : vs[k] ∈ stK.sys.db.videos := hpresK.1 hvk_mem
    rw [(aE e rfl).2]
    exact this
  · intro j hj hkj
    have hvj_mem : vs[j] ∈ sys.db.videos := hsubset _ (List.getElem_mem hj)
    have hpresJ := pPres hN (vs[j]) (take_id_ne vs hNv k j hj (le_of_lt hkj))
    have hneJ : ¬((vs[k]).id = (vs[j]).id) := hkj_ne j hj (Nat.ne_of_lt hkj)
    refine ⟨?_, ?_, ?_, ?_, ?_, ?_, ?_⟩
    · rw [(aE e rfl).2]
      exact hpresJ.1 hvj_mem
    · intro ev hev heq
      exact aEv ev (hpresJ.2.1 ev hev heq) (fun hh => hneJ (by rw [← heq, hh]))
    · intro q hq hex
      refine aQ q (hpresJ.2.2.1 q hq hex) ?_
      obtain ⟨ev, hev, hveq, hqe⟩ := hex
      exact eventIds_contains_false stK.sys.db (vs[k]).id (vs[j]).id q.event_id hNK
        ⟨ev, hpresJ.2.1 ev hev hveq, hveq, hqe⟩ hneJ
    · intro q hq hex
      refine aQA q (hpresJ.2.2.2.1 q hq hex) ?_
      obtain ⟨ev, hev, hveq, hqe⟩ := hex
      exact eventIds_contains_false stK.sys.db (vs[k]).id (vs[j]).id q.event_id hNK
        ⟨ev, hpresJ.2.1 ev hev hveq, hveq, hqe⟩ hneJ
    · intro q hq hex
      refine aEL q (hpresJ.2.2.2.2.1 q hq hex) ?_
      obtain ⟨ev, hev, hveq, hqe⟩ := hex
      exact eventIds_contains_false stK.sys.db (vs[k]).id (vs[j]).id q.event_id hNK
        ⟨ev, hpresJ.2.1 ev hev hveq, hveq, hqe⟩ hneJ
    · intro q hq hex
      refine aCP q (hpresJ.2.2.2.2.2.1 q hq hex) ?_
      obtain ⟨ev, hev, hveq, hqe⟩ := hex
      exact eventIds_contains_false stK.sys.db (vs[k]).id (vs[j]).id q.event_id hNK
        ⟨ev, hpresJ.2.1 ev hev hveq, hveq, hqe⟩ hneJ
    · intro q hq heq
      exact aP q (hpresJ.2.2.2.2.2.2 q hq heq) (fun hh => hneJ (by rw [← heq, hh]))

lemma isPrefixOf_append_self (l r : List Char) : l.isPrefixOf (l ++ r) = true := by
  induction l with
  | nil => simp [List.isPrefixOf]
  | cons a t ih => simp [List.isPrefixOf, ih]

/-- Claim C9: `extractPublicObjectPath` is total and never throws: every
input yields either `null` or a successfully decoded path string — the URL
parse failure, the missing marker, and the percent-decode failure (the
cases in which the platform primitives throw) are all converted to `null`
by the surrounding `try`/`catch`.  The second conjunct exhibits the
malformed-escape case concretely. -/
theorem extract_total_never_throws :
    (∀ url bucket : String,
      extractPublicObjectPath url bucket = none
      ∨ ∃ u i s, parseURL url = some u
          ∧ listIdxOfSub u.pathname.data ("/storage/v1/object/public/" ++ bucket ++ "/").data
              = some i
          ∧ decodeURIComponentOpt (String.mk (u.pathname.data.drop
              (i + ("/storage/v1/object/public/" ++ bucket ++ "/").data.length))) = some s
          ∧ extractPublicObjectPath url bucket = some s)
    ∧ extractPublicObjectPath "https://h.example/storage/v1/object/public/videos/%GG" "videos"
        = none := by
  constructor
  · intro url bucket
    cases hp : parseURL url with
    | none => exact Or.inl (by rw [extractPublicObjectPath, hp])
    | some u =>
      cases hi : listIdxOfSub u.pathname.data
          ("/storage/v1/object/public/" ++ bucket ++ "/").data with
      | none =>
        exact Or.inl (by rw [extractPublicObjectPath, hp]; dsimp only; rw [hi])
      | some i =>
        cases hd : decodeURIComponentOpt (String.mk (u.pathname.data.drop
            (i + ("/storage/v1/object/public/" ++ bucket ++ "/").data.length))) with
        | none =>
          refine Or.inl ?_
          rw [extractPublicObjectPath, hp]
          dsimp only
          rw [hi]
          dsimp only
          rw [hd]
        | some str =>
          refine Or.inr ⟨u, i, str, rfl, hi, hd, ?_⟩
          rw [extractPublicObjectPath, hp]
          dsimp only
          rw [hi]
          dsimp only
          rw [hd]
  · decide

/-- Claim C4 counterexample: the resolver never inspects the URL's host, so
a URL on a foreign (attacker) host whose pathname contains the public
marker for the expected bucket resolves to the object path instead of the
claimed NONE. -/
theorem extract_external_host_counterexample :
    extractPublicObjectPath
        "https://attacker.example/storage/v1/object/public/videos/movie.mp4" "videos"
      = some "movie.mp4"
    ∧ ¬(extractPublicObjectPath
        "https://attacker.example/storage/v1/object/public/videos/movie.mp4" "videos"
      = none) := by
  decide

/-- Claim C4 amended: `extractPublicObjectPath` returns NONE when the URL
string is empty, when it is not a well-formed URL (the parse fails), or
when its pathname does not contain the marker segment for the expected
bucket — which covers URLs naming a different bucket in the marker
position, unless the expected marker happens to occur elsewhere in the
path.  The host is never examined, so external-host URLs yield NONE only
through the missing-marker case. -/
theorem extract_none_cases (bucket : String) :
    (∀ url : String, url = "" → extractPublicObjectPath url bucket = none)
    ∧ (∀ url, parseURL url = none → extractPublicObjectPath url bucket = none)
    ∧ (∀ url u, parseURL url = some u →
        listIdxOfSub u.pathname.data ("/storage/v1/object/public/" ++ bucket ++ "/").data
          = none →
        extractPublicObjectPath url bucket = none) := by
  refine ⟨?_, ?_, ?_⟩
  · intro url hemp
    subst hemp
    rfl
  · intro url hp
    rw [extractPublicObjectPath, hp]
  · intro url u hp hi
    rw [extractPublicObjectPath, hp]
    dsimp only
    rw [hi]

/-- Claim C5 counterexample: the canonical public URL for bucket `videos`
and object path `%41` is well-formed and carries exactly the pathname
`marker ++ "videos" ++ "/" ++ "%41"`, yet the resolver returns the
percent-decoding `"A"`, not `"%41"` unchanged. -/
theorem extract_roundtrip_counterexample :
    parseURL "https://h.example/storage/v1/object/public/videos/%41"
      = some ⟨"https", "h.example", "/storage/v1/object/public/videos/%41"⟩
    ∧ extractPublicObjectPath "https://h.example/storage/v1/object/public/videos/%41" "videos"
        = some "A"
    ∧ ¬(extractPublicObjectPath
          "https://h.example/storage/v1/object/public/videos/%41" "videos" = some "%41") := by
  decide

/-- Claim C5 amended: resolving a well-formed URL whose pathname is the
marker followed by bucket `B`, a slash, and a path `P` yields the
percent-decoding of `P`; it yields `P` itself exactly when `P` is a fixed
point of percent-decoding (in particular whenever `P` contains no `%`). -/
theorem extract_roundtrip_decodes (url B P : String) (u : ParsedURL)
    (hp : parseURL url = some u)
    (hpath : u.pathname = "/storage/v1/object/public/" ++ B ++ "/" ++ P) :
    extractPublicObjectPath url B = decodeURIComponentOpt P
    ∧ (decodeURIComponentOpt P = some P → extractPublicObjectPath url B = some P) := by
  have hdata : u.pathname.data =
      ("/storage/v1/object/public/" ++ B ++ "/").data ++ P.data := by
    rw [hpath, String.data_append]
  have hmain : extractPublicObjectPath url B = decodeURIComponentOpt P := by
    rw [extractPublicObjectPath, hp]
    dsimp only
    rw [hdata, listIdxOfSub.eq_def, if_pos (isPrefixOf_append_self _ _)]
    dsimp only
    rw [Nat.zero_add, List.drop_left]
  exact ⟨hmain, fun hfix => by rw [hmain, hfix]⟩

/-! ## Witnesses: the theorems instantiated at the concrete system -/

/-- Witness for C1: the student `s1` deleting teacher-owned video `v1` is
answered 403 with the system unchanged. -/
theorem delete_requires_admin_or_owner_witness :
    deleteVideoHandler true noFaults sys0 reqStudent =
      (⟨sys0, [Op.selectVideo "v1", Op.selectRoles "s1"]⟩, ⟨403, some "Forbidden"⟩) :=
  (delete_requires_admin_or_owner noFaults sys0 reqStudent).2.1 "s1" "v1" v1row
    rfl rfl (by decide) rfl rfl (by decide) (by decide)

/-- Witness for C2: the teacher's successful DeleteVideo of `v1` leaves
zero dependent rows and no video row. -/
theorem deleteVideo_cascade_complete_witness :
    ((deleteVideoHandler true noFaults sys0 reqT).1.sys.db.timeline_events.filter
        (fun ev => ev.video_id == "v1") = [])
    ∧ ((deleteVideoHandler true noFaults sys0 reqT).1.sys.db.quizzes.filter (fun q =>
        ((sys0.db.timeline_events.filter (fun ev => ev.video_id == "v1")).map EventRow.id).contains q.event_id) = [])
    ∧ ((deleteVideoHandler true noFaults sys0 reqT).1.sys.db.quiz_attempts.filter (fun q =>
        ((sys0.db.timeline_events.filter (fun ev => ev.video_id == "v1")).map EventRow.id).contains q.event_id) = [])
    ∧ ((deleteVideoHandler true noFaults sys0 reqT).1.sys.db.exam_launches.filter (fun q =>
        ((sys0.db.timeline_events.filter (fun ev => ev.video_id == "v1")).map EventRow.id).contains q.event_id) = [])
    ∧ ((deleteVideoHandler true noFaults sys0 reqT).1.sys.db.video_event_completions.filter (fun q =>
        ((sys0.db.timeline_events.filter (fun ev => ev.video_id == "v1")).map EventRow.id).contains q.event_id) = [])
    ∧ ((deleteVideoHandler true noFaults sys0 reqT).1.sys.db.video_progress.filter
        (fun p => p.video_id == "v1") = [])
    ∧ ((deleteVideoHandler true noFaults sys0 reqT).1.sys.db.videos.filter
        (fun v => v.id == "v1") = []) :=
  deleteVideo_cascade_complete noFaults sys0 reqT "v1"
    (deleteVideoHandler true noFaults sys0 reqT).1
    (deleteVideoHandler true noFaults sys0 reqT).2
    rfl (by decide) (by decide) rfl (by decide)

/-- Witness for C3: with video `v2`'s cascade failing, DeleteCourse on the
three-video course answers 500 "boom", keeps the course row, keeps the
failing video's row, and keeps the unprocessed video `v3` with its quiz. -/
theorem deleteCourse_abort_witness :
    (deleteCourseHandler true f3 sys3 reqC3).2 = ⟨500, some "boom"⟩
    ∧ (deleteCourseHandler true f3 sys3 reqC3).1.sys.db.courses = db3.courses
    ∧ v2row ∈ (deleteCourseHandler true f3 sys3 reqC3).1.sys.db.videos
    ∧ v3row ∈ (deleteCourseHandler true f3 sys3 reqC3).1.sys.db.videos
    ∧ EventChildRow.mk "q3" "e3" ∈ (deleteCourseHandler true f3 sys3 reqC3).1.sys.db.quizzes := by
  have H := deleteCourse_abort_on_cascade_failure f3 sys3 reqC3 "a1" "c1" ⟨"c1", "t1", none⟩
    vs3 1 (by decide) stK3 stX3 (500, "boom") rfl rfl (by decide) rfl (by decide) rfl
    (by decide) rfl rfl (by decide) (by decide) (by decide) (by decide) (by decide)
  refine ⟨?_, ?_, ?_, ?_, ?_⟩
  · rw [H.1]
  · rw [H.1]
    exact H.2.2.1
  · rw [H.1]
    have h4 := H.2.2.2.1
    have heq : vs3.get ⟨1, by decide⟩ = v2row := by decide
    rw [← heq]
    exact h4
  · rw [H.1]
    have h5 := H.2.2.2.2 2 (by decide) (by decide)
    have heq : vs3.get ⟨2, by decide⟩ = v3row := by decide
    rw [← heq]
    exact h5.1
  · rw [H.1]
    have h5 := H.2.2.2.2 2 (by decide) (by decide)
    exact h5.2.2.1 ⟨"q3", "e3"⟩ (by decide) ⟨⟨"e3", "v3"⟩, by decide, by decide, by decide⟩

/-- Claim C3 counterexample: when the failing step is in the middle of the
failing video's own cascade (here: `v2`'s `quiz_attempts` delete fails
after its `quizzes` delete succeeded), the operation does abort with 500
and `v2`'s row survives, but `v2`'s dependent quiz row `q2` — present
before the call — is already gone: the failing video's dependent rows do
not all remain intact. -/
theorem deleteCourse_partial_children_counterexample :
    (deleteCourseHandler true f3b sys3 reqC3).2 = ⟨500, some "boom2"⟩
    ∧ v2row ∈ (deleteCourseHandler true f3b sys3 reqC3).1.sys.db.videos
    ∧ ¬(EventChildRow.mk "q2" "e2" ∈ (deleteCourseHandler true f3b sys3 reqC3).1.sys.db.quizzes)
    ∧ EventChildRow.mk "q2" "e2" ∈ sys3.db.quizzes := by
  decide

/-- Witness for C4's amended claim: empty string, non-URL text, and a
different-bucket URL all resolve to NONE. -/
theorem extract_none_cases_witness :
    extractPublicObjectPath "" "videos" = none
    ∧ extractPublicObjectPath "not a url" "videos" = none
    ∧ extractPublicObjectPath
        "https://h.example/storage/v1/object/public/other-bucket/x.mp4" "videos" = none :=
  ⟨(extract_none_cases "videos").1 "" rfl,
   (extract_none_cases "videos").2.1 "not a url" (by decide),
   (extract_none_cases "videos").2.2
     "https://h.example/storage/v1/object/public/other-bucket/x.mp4"
     ⟨"https", "h.example", "/storage/v1/object/public/other-bucket/x.mp4"⟩
     (by decide) (by decide)⟩

/-- Witness for C5's amended claim: a percent-free object path round-trips
unchanged through the canonical public URL. -/
theorem extract_roundtrip_decodes_witness :
    extractPublicObjectPath
      "https://h.example/storage/v1/object/public/videos/path/to/file.mp4" "videos"
      = some "path/to/file.mp4" :=
  (extract_roundtrip_decodes
    "https://h.example/storage/v1/object/public/videos/path/to/file.mp4"
    "videos" "path/to/file.mp4"
    ⟨"https", "h.example", "/storage/v1/object/public/videos/path/to/file.mp4"⟩
    (by decide) (by decide)).2 (by decide)

/-- Witness for C6: the successful cascade of `v1` ends its delete
sequence with the video-row delete. -/
theorem cascade_children_before_parents_witness :
    ∃ pre, deleteOpsOf ((cascadeDeleteVideo noFaults ⟨sys0, []⟩ "v1").1.trace.drop
        (List.length ([] : List Op))) = pre ++ [Op.deleteVideoRow "v1"] :=
  ((cascade_children_before_parents noFaults ⟨sys0, []⟩
      (cascadeDeleteVideo noFaults ⟨sys0, []⟩ "v1").1 "v1"
      (cascadeDeleteVideo noFaults ⟨sys0, []⟩ "v1").2 rfl).2 (by decide)).2

/-- Witness for C7: with the storage removal failing with a non-"not
found" error, DeleteVideo answers 500 although the video row (and its
whole cascade) is already gone. -/
theorem storage_after_rows_witness :
    (deleteVideoHandler true f7 sys0 reqT).2 = ⟨500, some "disk exploded"⟩
    ∧ (deleteVideoHandler true f7 sys0 reqT).1.sys.db.videos.filter
        (fun x => x.id == "v1") = [] := by
  have H := storage_after_rows f7 sys0 reqT "t1" "v1" v1row "f.mp4"
    (deleteVideoHandler true f7 sys0 reqT).1 (deleteVideoHandler true f7 sys0 reqT).2
    rfl rfl (by decide) rfl (by decide) rfl (by decide) (by decide) (by decide) rfl
  exact ⟨H.2.2.2.2.2 "disk exploded" rfl (by decide), H.2.1⟩

/-- Witness for C8: deleting `v1` twice gives 200 then 404, the second
call touching nothing and issuing only the video fetch. -/
theorem deleteVideo_idempotent_404_witness :
    deleteVideoHandler true noFaults (deleteVideoHandler true noFaults sys0 reqT).1.sys reqT =
      (⟨(deleteVideoHandler true noFaults sys0 reqT).1.sys, [Op.selectVideo "v1"]⟩,
        ⟨404, some "Video not found"⟩) :=
  deleteVideo_idempotent_404 noFaults noFaults sys0 reqT "t1" "v1"
    (deleteVideoHandler true noFaults sys0 reqT).1
    (deleteVideoHandler true noFaults sys0 reqT).2
    rfl rfl (by decide) rfl (by decide) rfl

/-- Witness for C10: an unauthenticated request with an invalid body is
answered 401 by both handlers, with nothing read or written. -/
theorem auth_before_body_witness :
    deleteVideoHandler true noFaults sys0 ⟨"POST", none, none⟩ =
      (⟨sys0, []⟩, ⟨401, some "Unauthorized"⟩)
    ∧ deleteCourseHandler true noFaults sys0 ⟨"POST", none, none⟩ =
      (⟨sys0, []⟩, ⟨401, some "Unauthorized"⟩) :=
  (auth_before_body noFaults sys0 ⟨"POST", none, none⟩ rfl).1 rfl

end Ragibs
